import Mathlib

set_option maxRecDepth 10000
set_option maxHeartbeats 1000000

/-!
Verification of the arbitrary-precision decimal number core (`src/src/num.c`).

The embedding models a `BcNum` as its list of base-`10^9` cells (least
significant first) together with the `rdx`, `scale` and `neg` fields.  The
`cap` field and the allocator are dropped: capacity never influences the
numeric contents, and all cell accesses performed by the modelled code are
within `len` (the C code asserts as much).  Cells are `Int` because
`bc_num_subArrays` lets them go transiently negative.

The global signal flag is threaded through as an explicit `sig : Bool`
parameter: the flag is only ever read by the core, and the claims under
study concern the two stable situations (never set / set before entry).

Constants that live in the repository's missing `num.h` header are modelled
from the spec (section 6): `BC_BASE = 10`, `BC_BASE_DIGS = 9` (64-bit
build), `BC_BASE_POW = 10^9`, `BC_NUM_DEF_SIZE = 16`,
`BC_NUM_KARATSUBA_LEN = 32`, `BC_NUM_RDX(s) = ceil(s / BC_BASE_DIGS)`,
`BC_NUM_ZERO(n) = (len == 0)`, `BC_NUM_ONE(n) = (len == 1 && rdx == 0 &&
num[0] == 1)`.
-/

namespace BcEmbed

/-- `BC_BASE` (modelled from the spec: the decimal base). -/
def BC_BASE : Int := 10

/-- `BC_BASE_DIGS` (modelled from the spec: decimal digits per cell, 9). -/
def BC_BASE_DIGS : Nat := 9

/-- `BC_BASE_POW` = `10^BC_BASE_DIGS` (modelled from the spec). -/
def BC_BASE_POW : Int := 1000000000

/-- `BC_NUM_DEF_SIZE` (modelled from the spec: default capacity, 16). -/
def BC_NUM_DEF_SIZE : Nat := 16

/-- `BC_NUM_KARATSUBA_LEN` (modelled from the spec: crossover threshold). -/
def BC_NUM_KARATSUBA_LEN : Nat := 32

/-- `BC_NUM_RDX(s)`: cells needed for `s` decimal fractional digits
(modelled from the spec: `rdx = ceil(scale / D)`). -/
def BC_NUM_RDX (s : Nat) : Nat := (s + BC_BASE_DIGS - 1) / BC_BASE_DIGS

-- The sentinel `BC_NUM_CMP_SIGNAL` (`SSIZE_MIN`) returned by comparisons
-- interrupted by a signal is modelled as `Option.none`.

/-- `BcStatus` (only the outcomes the number core produces). -/
inductive BcStatus where
  | success
  | signal
  | divideByZero
  | negative
  | nonInteger
  | overflow
deriving Repr, DecidableEq

/-- The number: cell list (least significant first), radix cell count,
decimal scale, sign.  `len` is the list length; `cap` is dropped. -/
structure BcNum where
  num : List Int
  rdx : Nat
  scale : Nat
  neg : Bool
deriving Repr, DecidableEq

namespace BcNum

/-- `n->len`. -/
def len (n : BcNum) : Nat := n.num.length

end BcNum

/-- `BC_NUM_ZERO(n)` as a decidable proposition. -/
def BC_NUM_ZERO (n : BcNum) : Prop := n.len = 0

instance (n : BcNum) : Decidable (BC_NUM_ZERO n) := by
  unfold BC_NUM_ZERO; infer_instance

/-- `BC_NUM_ONE(n)`. -/
def BC_NUM_ONE (n : BcNum) : Prop := n.len = 1 ∧ n.rdx = 0 ∧ n.num.getD 0 0 = 1

instance (n : BcNum) : Decidable (BC_NUM_ONE n) := by
  unfold BC_NUM_ONE; infer_instance

/-- `bc_num_neg(n, neg)` (num.c line 50): conditional two's-complement
negation. -/
def bc_num_neg (n : Int) (neg : Bool) : Int := if neg then -n else n

/-- `bc_num_cmpZero` (num.c line 54). -/
def bc_num_cmpZero (n : BcNum) : Int :=
  bc_num_neg (if n.len ≠ 0 then 1 else 0) n.neg

/-- `bc_num_int` (num.c line 58): integer cell count. -/
def bc_num_int (n : BcNum) : Nat := if n.len ≠ 0 then n.len - n.rdx else 0

/-- `bc_num_expand` (num.c line 62): capacity is not modelled, so this is
the identity on the value. -/
def bc_num_expand (n : BcNum) (_req : Nat) : BcNum := n

/-- `bc_num_setToZero` (num.c line 71). -/
def bc_num_setToZero (_n : BcNum) (scale : Nat) : BcNum :=
  { num := [], rdx := 0, scale := scale, neg := false }

/-- `bc_num_zero` (num.c line 78). -/
def bc_num_zero_fn (n : BcNum) : BcNum := bc_num_setToZero n 0

/-- `bc_num_one` (num.c line 82). -/
def bc_num_one_fn (n : BcNum) : BcNum :=
  let n := bc_num_setToZero n 0
  { n with num := [1] }

/-- Drop zero cells from the top (most significant end) of a cell list:
the first loop of `bc_num_clean`. -/
def trimTop (l : List Int) : List Int :=
  (l.reverse.dropWhile (· == 0)).reverse

/-- `bc_num_clean` (num.c line 88): trim top zero cells, clear the sign of
zero, and re-extend `len` to `rdx` (the re-extended cells are the zero
cells just trimmed, or zeroed capacity cells). -/
def bc_num_clean (n : BcNum) : BcNum :=
  let t := trimTop n.num
  if t.length = 0 then { n with num := t, neg := false }
  else if t.length < n.rdx then
    { n with num := t ++ List.replicate (n.rdx - t.length) 0 }
  else { n with num := t }

/-- `bc_num_copy` (num.c line 1834): `d` takes `s`'s value. -/
def bc_num_copy (_d : BcNum) (s : BcNum) : BcNum := s

/-- The inner loop of `bc_num_compare` (num.c line 210), scanning from the
most significant cell of the window down; `i` is the number of cells still
to scan. -/
def bc_num_compare_go (a b : List Int) : Nat → Int
  | 0 => 0
  | i + 1 =>
    let c := a.getD i 0 - b.getD i 0
    if c = 0 then bc_num_compare_go a b i
    else bc_num_neg (i + 1) (decide (c < 0))

/-- `bc_num_compare` (num.c line 210); `none` is the
`BC_NUM_CMP_SIGNAL` sentinel. -/
def bc_num_compare (sig : Bool) (a b : List Int) (len : Nat) : Option Int :=
  if sig then none else some (bc_num_compare_go a b len)

/-- The trailing loop of `bc_num_cmp` (num.c line 265): does the longer
fractional part have a nonzero cell below the compared window? -/
def bc_num_cmp_lowNonzero (l : List Int) (diff : Nat) : Bool :=
  decide (∃ i ∈ List.range diff, l.getD i 0 ≠ 0)

/-- `bc_num_cmp` (num.c lines 219-270).  The `a == b` pointer-identity
shortcut is not representable in a pure model and is dropped (for distinct
objects the C takes the path modelled here).  The `size_t` subtraction of
integer cell counts followed by the cast to `ssize_t` is modelled as `Int`
subtraction (cell counts are far below `2^63`). -/
def bc_num_cmp (sig : Bool) (a b : BcNum) : Option Int :=
  if BC_NUM_ZERO a then some (bc_num_neg (if b.len ≠ 0 then 1 else 0) (!b.neg))
  else if BC_NUM_ZERO b then some (bc_num_cmpZero a)
  else
    -- sign dispatch
    if a.neg ∧ ¬ b.neg then some (-1)
    else if ¬ a.neg ∧ b.neg then some 1
    else
      let neg : Bool := a.neg  -- both signs equal here; true iff both negative
      let a_int : Int := (bc_num_int a : Int) - (bc_num_int b : Int)
      let a_max : Bool := decide (a.rdx > b.rdx)
      if a_int ≠ 0 then some a_int  -- NOTE: source does not negate this when `neg`
      else
        let min : Nat := if a_max then b.rdx else a.rdx
        let diff : Nat := if a_max then a.rdx - b.rdx else b.rdx - a.rdx
        let max_num : List Int := if a_max then a.num.drop diff else b.num.drop diff
        let min_num : List Int := if a_max then b.num else a.num
        match bc_num_compare sig max_num min_num (bc_num_int b + min) with
        | none => none
        | some cmp =>
          if cmp ≠ 0 then some (bc_num_neg cmp ((!a_max) == (!neg)))
          else
            let base : List Int := if a_max then a.num else b.num
            if sig then none
            else if bc_num_cmp_lowNonzero base diff then
              some (bc_num_neg 1 ((!a_max) == (!neg)))
            else some 0

/-- Integer value of a cell list, least significant cell first. -/
def listVal : List Int → Int
  | [] => 0
  | d :: l => d + BC_BASE_POW * listVal l

/-- The rational value denoted by a `BcNum`. -/
def BcNum.val (n : BcNum) : ℚ :=
  (if n.neg then -1 else 1) * ((listVal n.num : ℚ) / ((BC_BASE_POW : ℚ) ^ n.rdx))

/-- Well-formedness of a number, as produced by `bc_num_clean` and
maintained by the operations: cells in range, `rdx ≤ len` when nonzero, a
zero top cell only when `len = rdx` (a purely fractional number re-extended
by `clean`), sign only on nonzero values, and `rdx` linked to `scale` for
nonzero values. -/
def WF (n : BcNum) : Prop :=
  (∀ d ∈ n.num, 0 ≤ d ∧ d < BC_BASE_POW) ∧
  (n.num ≠ [] → n.rdx ≤ n.num.length) ∧
  (n.num ≠ [] → n.num.getLast? = some 0 → n.num.length = n.rdx) ∧
  (n.neg → n.num ≠ []) ∧
  (n.num ≠ [] → n.rdx = BC_NUM_RDX n.scale)

instance (n : BcNum) : Decidable (WF n) := by
  unfold WF; infer_instance

/-- The `bc_num_pow10` table (modelled from the spec: `pow10[i] = 10^i`
for `i ≤ BC_BASE_DIGS`). -/
def bc_num_pow10 (i : Nat) : Int := 10 ^ i

/-- `bc_num_truncate` (num.c line 272): drop `places` decimal digits of
scale, dropping whole low cells and masking the low digits of the new
cell 0. -/
def bc_num_truncate (n : BcNum) (places : Nat) : BcNum :=
  if places = 0 then n
  else
    let places_rdx := n.rdx - BC_NUM_RDX (n.scale - places)
    let scale' := n.scale - places
    let rdx' := n.rdx - places_rdx
    if n.len = 0 then { n with scale := scale', rdx := rdx' }
    else
      let p : Nat := scale' % BC_BASE_DIGS
      let p : Nat := if p ≠ 0 then BC_BASE_DIGS - p else 0
      let pw : Int := bc_num_pow10 p
      let l := n.num.drop places_rdx
      let l := match l with
               | [] => []
               | d :: rest => (d - d % pw) :: rest
      bc_num_clean { n with num := l, scale := scale', rdx := rdx' }

/-- `bc_num_extend` (num.c line 302): add `places` decimal digits of
scale, prepending the needed zero cells. -/
def bc_num_extend (n : BcNum) (places : Nat) : BcNum :=
  if places = 0 then n
  else
    let places_rdx := BC_NUM_RDX (places + n.scale) - n.rdx
    { n with num := List.replicate places_rdx 0 ++ n.num,
             rdx := n.rdx + places_rdx, scale := n.scale + places }

/-- `bc_num_retireMul` (num.c line 323). -/
def bc_num_retireMul (n : BcNum) (scale : Nat) (neg1 neg2 : Bool) : BcNum :=
  let n := if n.scale < scale then bc_num_extend n (scale - n.scale)
           else bc_num_truncate n (n.scale - scale)
  let n := bc_num_clean n
  if n.len ≠ 0 then { n with neg := neg1 != neg2 } else n

/-- `bc_num_addDigit` (num.c line 119): returns the written digit and the
outgoing carry. -/
def bc_num_addDigit (d c : Int) : Int × Int :=
  ((d + c) % BC_BASE_POW, (d + c) / BC_BASE_POW)

/-- First loop of `bc_num_addArrays`: add windows `a[i..len)` and
`b[i..len)` with carry, in place in `a`. -/
def addArrays_go1_cnt (b : List Int) : Nat → List Int → Nat → Int →
    List Int × Int
  | 0, a, _, carry => (a, carry)
  | cnt + 1, a, i, carry =>
    let inn := a.getD i 0 + b.getD i 0
    let dc := bc_num_addDigit inn carry
    addArrays_go1_cnt b cnt (a.set i dc.1) (i + 1) dc.2

def addArrays_go1 (a b : List Int) (len : Nat) (i : Nat) (carry : Int) :
    List Int × Int :=
  addArrays_go1_cnt b (len - i) a i carry

/-- Second loop of `bc_num_addArrays`: propagate the carry upward through
`a[i..]`.  The C code relies on the caller having provided room; the walk
stops at the end of the visible cells. -/
def addArrays_go2_cnt : Nat → List Int → Nat → Int → List Int
  | 0, a, _, _ => a
  | cnt + 1, a, i, carry =>
    if carry = 0 then a
    else
      let dc := bc_num_addDigit (a.getD i 0) carry
      addArrays_go2_cnt cnt (a.set i dc.1) (i + 1) dc.2

def addArrays_go2 (a : List Int) (i : Nat) (carry : Int) : List Int :=
  if carry = 0 then a
  else addArrays_go2_cnt (a.length - i) a i carry

/-- `bc_num_addArrays` (num.c line 126), acting on the window list `a`. -/
def bc_num_addArrays (sig : Bool) (a b : List Int) (len : Nat) :
    BcStatus × List Int :=
  if sig then (BcStatus.signal, a)
  else
    let r := addArrays_go1 a b len 0 0
    (BcStatus.success, addArrays_go2 r.1 len r.2)

/-- The borrow walk inside `bc_num_subArrays`: while `a[idx] < 0`, add
`BC_BASE_POW` to it and decrement `a[idx+1]`. -/
def subBorrow_cnt : Nat → List Int → Nat → List Int
  | 0, a, _ => a
  | cnt + 1, a, idx =>
    if a.getD idx 0 < 0 then
      let a := a.set idx (a.getD idx 0 + BC_BASE_POW)
      let a := a.set (idx + 1) (a.getD (idx + 1) 0 - 1)
      subBorrow_cnt cnt a (idx + 1)
    else a

def subBorrow (a : List Int) (idx : Nat) : List Int :=
  subBorrow_cnt (a.length - idx) a idx

/-- Outer loop of `bc_num_subArrays`. -/
def subArrays_go_cnt (b : List Int) : Nat → List Int → Nat → List Int
  | 0, a, _ => a
  | cnt + 1, a, i =>
    let a := a.set i (a.getD i 0 - b.getD i 0)
    subArrays_go_cnt b cnt (subBorrow a i) (i + 1)

def subArrays_go (a b : List Int) (len : Nat) (i : Nat) : List Int :=
  subArrays_go_cnt b (len - i) a i

/-- `bc_num_subArrays` (num.c line 143), acting on the window list `a`. -/
def bc_num_subArrays (sig : Bool) (a b : List Int) (len : Nat) :
    BcStatus × List Int :=
  if sig then (BcStatus.signal, a)
  else (BcStatus.success, subArrays_go a b len 0)

/-- The two carry loops of `bc_num_a` (num.c lines 584-590), fused: add
`cnt` cells of `x` and `y` with carry, returning the produced cells and
the final carry (the second loop is the case `y = []`). -/
def awc (x y : List Int) : Nat → Int → List Int × Int
  | 0, c => ([], c)
  | cnt + 1, c =>
    let inn := x.headD 0 + y.headD 0
    let dc := bc_num_addDigit inn c
    let r := awc x.tail y.tail cnt dc.2
    (dc.1 :: r.1, r.2)

/-- `bc_num_a` (num.c line 529): magnitude addition.  `sub` is the
hijacked scale parameter saying whether the outer operation is a
subtract. -/
def bc_num_a (sig : Bool) (a b : BcNum) (sub : Bool) : BcStatus × BcNum :=
  if BC_NUM_ZERO a then
    let c := bc_num_copy a b
    (BcStatus.success, if sub ∧ ¬ BC_NUM_ZERO c then { c with neg := !c.neg } else c)
  else if BC_NUM_ZERO b then (BcStatus.success, bc_num_copy b a)
  else
    let cneg := a.neg
    let crdx := max a.rdx b.rdx
    let cscale := max a.scale b.scale
    let min_rdx := min a.rdx b.rdx
    let diff := if a.rdx > b.rdx then a.rdx - b.rdx else b.rdx - a.rdx
    let low := (if a.rdx > b.rdx then a.num else b.num).take diff
    let ptr_a := if a.rdx > b.rdx then a.num.drop diff else a.num
    let ptr_b := if a.rdx > b.rdx then b.num else b.num.drop diff
    let a_int := bc_num_int a
    let b_int := bc_num_int b
    let min_int := min a_int b_int
    let mx := max a_int b_int
    let ptr := if a_int > b_int then ptr_a else ptr_b
    if sig then
      -- both summing loops poll the flag before the first iteration, so
      -- only the low-cell copy happens; `c->len` is `diff` and no carry.
      (BcStatus.signal, { num := low, rdx := crdx, scale := cscale, neg := cneg })
    else
      let r1 := awc ptr_a ptr_b (min_rdx + min_int) 0
      let r2 := awc (ptr.drop (min_rdx + min_int)) [] (mx + min_rdx - (min_rdx + min_int)) r1.2
      let digits := r1.1 ++ r2.1
      let digits := if r2.2 ≠ 0 then digits ++ [r2.2] else digits
      (BcStatus.success, { num := low ++ digits, rdx := crdx, scale := cscale, neg := cneg })

/-- Tail of `bc_num_s` (num.c lines 650-663) once the minuend and
subtrahend have been chosen: copy the minuend, align the fractions,
subtract in place, clean. -/
def bc_num_s_core (sig : Bool) (minuend subtrahend : BcNum) (neg : Bool) :
    BcStatus × BcNum :=
  let c := { minuend with neg := neg }
  let c := if c.scale < subtrahend.scale
           then bc_num_extend c (subtrahend.scale - c.scale) else c
  let start := if minuend.scale < subtrahend.scale then 0
               else c.rdx - subtrahend.rdx
  let r := bc_num_subArrays sig (c.num.drop start) subtrahend.num subtrahend.len
  let c := { c with num := c.num.take start ++ r.2 }
  (r.1, bc_num_clean c)

/-- `bc_num_s` (num.c line 599): magnitude subtraction. -/
def bc_num_s (sig : Bool) (a b : BcNum) (sub : Bool) : BcStatus × BcNum :=
  if BC_NUM_ZERO a then
    let c := bc_num_copy a b
    (BcStatus.success, if sub ∧ ¬ BC_NUM_ZERO c then { c with neg := !c.neg } else c)
  else if BC_NUM_ZERO b then (BcStatus.success, bc_num_copy b a)
  else
    match bc_num_cmp sig { a with neg := false } { b with neg := false } with
    | none => (BcStatus.signal, b)
    | some cmp =>
    if cmp = 0 then
      (BcStatus.success, bc_num_setToZero b (max a.rdx b.rdx))
    else
      let neg := if cmp > 0 then a.neg else (if sub then !b.neg else b.neg)
      let minuend := if cmp > 0 then a else b
      let subtrahend := if cmp > 0 then b else a
      bc_num_s_core sig minuend subtrahend neg

/-- `bc_num_add` (num.c line 2048).  The `scale` parameter is
`BC_UNUSED`.  The aliasing resolution of `bc_num_binary` does not affect
the value computed (see the state model below), so the value semantics is
the chosen inner operation applied to the operands. -/
def bc_num_add (sig : Bool) (a b : BcNum) (_scale : Nat) : BcStatus × BcNum :=
  if (!a.neg) == (!b.neg) then bc_num_a sig a b false else bc_num_s sig a b false

/-- `bc_num_sub` (num.c line 2054); `scale` is `BC_UNUSED`. -/
def bc_num_sub (sig : Bool) (a b : BcNum) (_scale : Nat) : BcStatus × BcNum :=
  if (!a.neg) == (!b.neg) then bc_num_s sig a b true else bc_num_a sig a b true

/-- `SIZE_MAX`. -/
def SIZE_MAX : Nat := 2 ^ 64 - 1

/-- `bc_vm_growSize`: checked addition (the checking VM helper is out of
scope; overflow cannot occur at the modelled call sites). -/
def bc_vm_growSize (a b : Nat) : Nat := a + b

/-- The cell re-digiting loop of `bc_num_shift` (num.c line 382),
processing most significant cell first: each cell becomes its high part
plus the carry from above, the low part carries on downward. -/
def shiftCells (pw d2 : Int) : List Int → Int → List Int × Int
  | [], c => ([], c)
  | x :: rest, c =>
    let nw := x / pw + c * d2
    let r := shiftCells pw d2 rest (x % pw)
    (nw :: r.1, r.2)

/-- `bc_num_shift` (num.c line 371): sub-cell shift by `dig` decimal
digits. -/
def bc_num_shift (sig : Bool) (n : BcNum) (dig : Nat) : BcStatus × BcNum :=
  if sig then (BcStatus.signal, n)
  else
    let pw := bc_num_pow10 dig
    let d2 := bc_num_pow10 (BC_BASE_DIGS - dig)
    let r := shiftCells pw d2 n.num.reverse 0
    (BcStatus.success, { n with num := r.1.reverse })

/-- `bc_num_shiftLeft` (num.c line 395). -/
def bc_num_shiftLeft (sig : Bool) (n : BcNum) (places : Nat) : BcStatus × BcNum :=
  if places = 0 then (BcStatus.success, n)
  else if places > n.scale ∧
      bc_vm_growSize (BC_NUM_RDX (places - n.scale)) n.len > SIZE_MAX - 1 then
    (BcStatus.overflow, n)
  else if n.len = 0 then
    (BcStatus.success,
      { n with scale := if n.scale ≥ places then n.scale - places else 0 })
  else
    let dig := places % BC_BASE_DIGS
    let shift := dig ≠ 0
    let places_rdx := BC_NUM_RDX places
    let places_rdx :=
      if n.scale ≠ 0 then
        if n.rdx ≥ places_rdx then
          let md := n.scale % BC_BASE_DIGS
          let md := if md = 0 then BC_BASE_DIGS else md
          let revdig := if dig ≠ 0 then BC_BASE_DIGS - dig else 0
          if md + revdig > BC_BASE_DIGS then 1 else 0
        else places_rdx - n.rdx
      else places_rdx
    let n := if places_rdx ≠ 0 then
        { n with num := List.replicate places_rdx 0 ++ n.num } else n
    let n := if places > n.scale then { n with scale := 0, rdx := 0 }
             else { n with scale := n.scale - places,
                           rdx := BC_NUM_RDX (n.scale - places) }
    let r := if shift then bc_num_shift sig n (BC_BASE_DIGS - dig)
             else (BcStatus.success, n)
    let n := bc_num_clean r.2
    (if sig ∧ r.1 = BcStatus.success then BcStatus.signal else r.1, n)

/-- `bc_num_shiftRight` (num.c line 452). -/
def bc_num_shiftRight (sig : Bool) (n : BcNum) (places : Nat) : BcStatus × BcNum :=
  if places = 0 then (BcStatus.success, n)
  else if n.len = 0 then
    (BcStatus.success, { n with scale := n.scale + places })
  else
    let dig := places % BC_BASE_DIGS
    let shift := dig ≠ 0
    let scale0 := n.scale
    let scale_mod := scale0 % BC_BASE_DIGS
    let scale_mod := if scale_mod = 0 then BC_BASE_DIGS else scale_mod
    let int_len := bc_num_int n
    let places_rdx := BC_NUM_RDX places
    let ep := if scale_mod + dig > BC_BASE_DIGS then (places_rdx - 1, 1)
              else (places_rdx, 0)
    let expand := if ep.1 > int_len then ep.1 - int_len else 0
    let n := bc_num_extend n (ep.2 * BC_BASE_DIGS)
    let n := { n with num := n.num ++ List.replicate expand 0 }
    let n := { n with scale := 0, rdx := 0 }
    let r := if shift then bc_num_shift sig n dig else (BcStatus.success, n)
    let n := { r.2 with scale := scale0 + places,
                        rdx := BC_NUM_RDX (scale0 + places) }
    let n := bc_num_clean n
    (if sig ∧ r.1 = BcStatus.success then BcStatus.signal else r.1, n)

/-- `bc_num_shiftZero` (num.c line 352): strip low zero cells, returning
how many were stripped. -/
def bc_num_shiftZero (n : BcNum) : Nat × BcNum :=
  let i := (n.num.takeWhile (· == 0)).length
  (i, { n with num := n.num.drop i })

/-- `bc_num_split` (num.c line 333): split at cell index `idx` into
(low, high); both parts are integers. -/
def bc_num_split (n : BcNum) (idx : Nat) : BcNum × BcNum :=
  if idx < n.len then
    let b : BcNum := ⟨n.num.drop idx, 0, 0, false⟩
    let a : BcNum := ⟨n.num.take idx, 0, 0, false⟩
    (bc_num_clean a, bc_num_clean b)
  else
    (bc_num_clean n, ⟨[], 0, 0, false⟩)

/-- `bc_num_mulArray`'s cell loop (num.c line 173). -/
def mulArray_go (a : List Int) (b : Int) (carry : Int) : List Int × Int :=
  match a with
  | [] => ([], carry)
  | x :: rest =>
    let inn := x * b + carry
    let r := mulArray_go rest b (inn / BC_BASE_POW)
    ((inn % BC_BASE_POW) :: r.1, r.2)

/-- `bc_num_mulArray` (num.c line 161): multiply by a single big digit.
On the signal path the C leaves `c` with its old length over a zeroed
buffer. -/
def bc_num_mulArray (sig : Bool) (a : BcNum) (b : Int) (c : BcNum) :
    BcStatus × BcNum :=
  if sig then (BcStatus.signal, { c with num := List.replicate c.len 0 })
  else
    let r := mulArray_go a.num b 0
    (BcStatus.success,
      { c with num := r.1 ++ (if r.2 ≠ 0 then [r.2] else []) })

/-- `bc_num_divArray`'s cell loop (num.c line 197), most significant cell
first. -/
def divArray_go (b : Int) : List Int → Int → List Int × Int
  | [], carry => ([], carry)
  | x :: rest, carry =>
    let inn := x + carry * BC_BASE_POW
    let r := divArray_go b rest (inn % b)
    ((inn / b) :: r.1, r.2)

/-- `bc_num_divArray` (num.c line 189): short division by a single big
digit, also returning the remainder.  Signal-path contents are
unspecified in the C (garbage cells); modelled as zeros. -/
def bc_num_divArray (sig : Bool) (a : BcNum) (b : Int) (c : BcNum) :
    BcStatus × BcNum × Int :=
  if sig then
    (BcStatus.signal, bc_num_clean { c with num := List.replicate a.len 0 }, 0)
  else
    let r := divArray_go b a.num.reverse 0
    (BcStatus.success, bc_num_clean { c with num := r.1.reverse }, r.2)

/-- Inner (column) loop of `bc_num_m_simp` (num.c line 686); `k` is an
`Int` because the C relies on `size_t` wraparound of `k--` to stop. -/
def msimp_inner_cnt (a b : List Int) (blen : Nat) :
    Nat → Nat → Int → Int → Int → Int × Int
  | 0, _, _, sum, carry => (sum, carry)
  | cnt + 1, j, k, sum, carry =>
    if 0 ≤ k ∧ k < blen then
      let s := sum + a.getD j 0 * b.getD (k.toNat) 0
      let sc := if s ≥ BC_BASE_POW then (s % BC_BASE_POW, carry + s / BC_BASE_POW)
                else (s, carry)
      msimp_inner_cnt a b blen cnt (j + 1) (k - 1) sc.1 sc.2
    else (sum, carry)

def msimp_inner (a b : List Int) (alen blen : Nat) (j : Nat)
    (k sum carry : Int) : Int × Int :=
  msimp_inner_cnt a b blen (alen - j) j k sum carry

/-- Outer (result-cell) loop of `bc_num_m_simp` (num.c line 681). -/
def msimp_go_cnt (a b : List Int) (alen blen : Nat) :
    Nat → Nat → Int → List Int
  | 0, _, sum => if sum ≠ 0 then [sum] else []
  | cnt + 1, i, sum =>
    let j : Nat := if blen ≤ i then i - blen + 1 else 0
    let k : Int := min (i : Int) ((blen : Int) - 1)
    let r := msimp_inner a b alen blen j k sum 0
    r.1 :: msimp_go_cnt a b alen blen cnt (i + 1) r.2

def msimp_go (a b : List Int) (alen blen clen : Nat) (i : Nat) (sum : Int) :
    List Int :=
  msimp_go_cnt a b alen blen (clen - i) i sum

/-- `bc_num_m_simp` (num.c line 666): schoolbook multiplication of two
integer numbers. -/
def bc_num_m_simp (sig : Bool) (a b c : BcNum) : BcStatus × BcNum :=
  let clen := a.len + b.len
  if sig then (BcStatus.signal, { c with num := List.replicate clen 0 })
  else
    (BcStatus.success,
      { c with num := msimp_go a.num b.num a.len b.len clen 0 0 })

/-- `bc_num_shiftAddSub` (num.c line 713): apply an array add or subtract
of `a` into the window of `n` starting at cell `shift`. -/
def bc_num_shiftAddSub (sig : Bool) (n a : BcNum) (shift : Nat)
    (op : Bool → List Int → List Int → Nat → BcStatus × List Int) :
    BcStatus × BcNum :=
  let r := op sig (n.num.drop shift) a.num a.len
  (r.1, { n with num := n.num.take shift ++ r.2 })

/-- The shift-add/sub placement sequence of one Karatsuba sub-product
(num.c lines 790-816): each pair is an offset and whether the placement
subtracts. -/
def k_shifts (sig : Bool) : BcNum → BcNum → List (Nat × Bool) →
    BcStatus × BcNum
  | c, _, [] => (BcStatus.success, c)
  | c, z, sh :: rest =>
    let op := if sh.2 then bc_num_subArrays else bc_num_addArrays
    let r := bc_num_shiftAddSub sig c z sh.1 op
    if r.1 ≠ BcStatus.success then (r.1, r.2)
    else k_shifts sig r.2 z rest

mutual

/-- One sub-product contribution of `bc_num_k` (num.c lines 784-817):
multiply the nonzero halves through `bc_num_m`, clean, and place the
product at the given offsets. -/
def k_prod (fuel : Nat) (sig : Bool) (x y c : BcNum)
    (shifts : List (Nat × Bool)) : Option (BcStatus × BcNum) :=
  if x.num ≠ [] ∧ y.num ≠ [] then
    match fuel with
    | 0 => none
    | fuel + 1 =>
      match bc_num_m fuel sig x y ⟨[], 0, 0, false⟩ 0 with
      | none => none
      | some rz =>
        if rz.1 ≠ BcStatus.success then some (rz.1, c)
        else some (k_shifts sig c (bc_num_clean rz.2) shifts)
  else some (BcStatus.success, c)
termination_by structural fuel

/-- `bc_num_k` (num.c line 721): Karatsuba driver.  `fuel` bounds the
recursion depth (the C recursion terminates because operands shrink; the
top-level wrapper supplies sufficient fuel).  `none` means fuel ran
out. -/
def bc_num_k (fuel : Nat) (sig : Bool) (a b c : BcNum) :
    Option (BcStatus × BcNum) :=
  match fuel with
  | 0 => none
  | fuel + 1 =>
    let aone := BC_NUM_ONE a
    if sig then some (BcStatus.signal, c)
    else if BC_NUM_ZERO a ∨ BC_NUM_ZERO b then some (BcStatus.success, c)
    else if aone ∨ BC_NUM_ONE b then
      let c := bc_num_copy c (if aone then b else a)
      let c := if (aone ∧ a.neg) ∨ b.neg then { c with neg := !c.neg } else c
      some (BcStatus.success, c)
    else if a.len < BC_NUM_KARATSUBA_LEN ∨ b.len < BC_NUM_KARATSUBA_LEN then
      some (bc_num_m_simp sig a b c)
    else
      let mx := Nat.max (Nat.max a.len b.len) BC_NUM_DEF_SIZE
      let max2 := (mx + 1) / 2
      let s1 := bc_num_split a max2
      let l1 := bc_num_clean s1.1
      let h1 := bc_num_clean s1.2
      let s2 := bc_num_split b max2
      let l2 := bc_num_clean s2.1
      let h2 := bc_num_clean s2.2
      let clen := 2 * (mx + 1) + 1
      let c := { c with num := List.replicate clen 0 }
      let rm1 := bc_num_sub sig h1 l1 0
      if rm1.1 ≠ BcStatus.success then some (rm1.1, c) else
      let m1 := rm1.2
      let rm2 := bc_num_sub sig l2 h2 0
      if rm2.1 ≠ BcStatus.success then some (rm2.1, c) else
      let m2 := rm2.2
      match k_prod fuel sig h1 h2 c [(max2 * 2, false), (max2, false)] with
      | none => none
      | some r2 =>
        if r2.1 ≠ BcStatus.success then some r2 else
        match k_prod fuel sig l1 l2 r2.2 [(max2, false), (0, false)] with
        | none => none
        | some r0 =>
          if r0.1 ≠ BcStatus.success then some r0 else
          match k_prod fuel sig m1 m2 r0.2 [(max2, m1.neg != m2.neg)] with
          | none => none
          | some r1 =>
            if r1.1 ≠ BcStatus.success then some r1
            else some (BcStatus.success, r1.2)
termination_by structural fuel

/-- `bc_num_m` (num.c line 828): the multiplication driver.  `fuel` as in
`bc_num_k`. -/
def bc_num_m (fuel : Nat) (sig : Bool) (a b c : BcNum) (scale : Nat) :
    Option (BcStatus × BcNum) :=
  match fuel with
  | 0 => none
  | fuel + 1 =>
    let c := bc_num_setToZero c 0
    let ascale := a.scale
    let bscale := b.scale
    let scale := max (max scale ascale) bscale
    let rscale := ascale + bscale
    let scale := min rscale scale
    if (a.len = 1 ∨ b.len = 1) ∧ a.rdx = 0 ∧ b.rdx = 0 then
      let dig := if a.len = 1 then a.num.getD 0 0 else b.num.getD 0 0
      let operand := if a.len = 1 then b else a
      let r := bc_num_mulArray sig operand dig c
      if r.1 = BcStatus.signal then some (r.1, r.2)
      else
        some (r.1, { r.2 with scale := operand.scale, rdx := operand.rdx,
                              neg := a.neg != b.neg })
    else
      let cpa := { a with neg := false }
      let cpb := { b with neg := false }
      let ardx := cpa.rdx * BC_BASE_DIGS
      let ra := bc_num_shiftLeft sig cpa ardx
      if ra.1 = BcStatus.signal then some (ra.1, c) else
      let cpa := bc_num_clean ra.2
      let za := bc_num_shiftZero cpa
      let azero := za.1
      let cpa := za.2
      let brdx := cpb.rdx * BC_BASE_DIGS
      let rb := bc_num_shiftLeft sig cpb brdx
      if rb.1 = BcStatus.signal then some (rb.1, c) else
      let zb := bc_num_shiftZero rb.2
      let bzero := zb.1
      let cpb := bc_num_clean zb.2
      match bc_num_k fuel sig cpa cpb c with
      | none => none
      | some rk =>
        if rk.1 = BcStatus.signal then some (rk.1, rk.2) else
        let c := rk.2
        let zcnt := bc_vm_growSize azero bzero
        let len := bc_vm_growSize c.len zcnt
        let rs1 := bc_num_shiftLeft sig c ((len - c.len) * BC_BASE_DIGS)
        if rs1.1 = BcStatus.signal then some (rs1.1, rs1.2) else
        let rs2 := bc_num_shiftRight sig rs1.2 (ardx + brdx)
        if rs2.1 = BcStatus.signal then some (rs2.1, rs2.2) else
        some (rs2.1, bc_num_retireMul rs2.2 scale a.neg b.neg)
termination_by structural fuel

end

/-- Fuel supplied by the top-level multiplication wrapper: sufficient for
the Karatsuba recursion to terminate (each level at least halves the
cell counts). -/
def mulFuel (a b : BcNum) : Nat :=
  a.len + a.rdx + b.len + b.rdx + 2

/-- `bc_num_mul` (num.c line 2060); the aliasing resolution of
`bc_num_binary` does not affect the computed value. -/
def bc_num_mul (sig : Bool) (a b : BcNum) (scale : Nat) :
    Option (BcStatus × BcNum) :=
  bc_num_m (mulFuel a b) sig a b ⟨[], 0, 0, false⟩ scale

/-- `bc_num_log10` (num.c line 94): number of decimal digits (0 for 0). -/
def log10_cnt : Nat → Nat → Nat
  | 0, _ => 0
  | fuel + 1, i => if i = 0 then 0 else 1 + log10_cnt fuel (i / 10)

def bc_num_log10 (i : Nat) : Nat := log10_cnt i i

/-- `bc_num_zeroDigits` (num.c line 101): unused decimal digit positions
in a top cell. -/
def bc_num_zeroDigits (d : Int) : Nat := BC_BASE_DIGS - bc_num_log10 d.toNat

/-- `bc_num_intDigits` (num.c line 105): decimal digits of the integer
part. -/
def bc_num_intDigits (n : BcNum) : Nat :=
  let digits := bc_num_int n * BC_BASE_DIGS
  if digits > 0 then digits - bc_num_zeroDigits (n.num.getD (n.len - 1) 0)
  else digits

/-- `bc_num_divCmp` (num.c line 907) specialised to a clear signal flag
(all its callers run only when the flag is down; with the flag up the
enclosing loops never execute). -/
def bc_num_divCmpF (a : List Int) (b : BcNum) (len : Nat) : Int :=
  if b.len > len ∧ a.getD len 0 ≠ 0 then bc_num_compare_go a b.num (len + 1)
  else if b.len ≤ len then
    if a.getD len 0 ≠ 0 then 1 else bc_num_compare_go a b.num len
  else -1

/-- The `while (cmp < 0)` refinement loop of `bc_num_d_long` (num.c
line 1004): repeatedly subtract `sub` from `cpb`, lowering `q` by `pow`.
`fuel` bounds the iterations (the C loop terminates because `cpb`
strictly decreases; the supplied fuel exceeds any possible iteration
count). -/
def d_dec_loop (nw : List Int) (len : Nat) (subN : BcNum) (pw : Int) :
    Nat → BcNum → Int → Int → Option (BcNum × Int)
  | 0, _, _, _ => none
  | fuel + 1, cpb, q, cmp =>
    if cmp < 0 then
      let q := q - pw
      let r := bc_num_subArrays false cpb.num subN.num subN.len
      let cpb := bc_num_clean { cpb with num := r.2 }
      d_dec_loop nw len subN pw fuel cpb q (bc_num_divCmpF nw cpb len)
    else some (cpb, q)

/-- The `while (pow > 0)` loop of `bc_num_d_long` (num.c line 991).  The
`cpb.len = cpblen` restoration re-exposes buffer cells beyond the cleaned
length; those cells are the zeros trimmed by `clean` (and cells updated
by the carry of `addArrays`), so the model re-pads with zeros before the
add. -/
def d_pow_loop (nw : List Int) (len cpblen : Nat) :
    Nat → Int → BcNum → BcNum → Int → Option (BcNum × Int)
  | 0, _, _, _, _ => none
  | fuel + 1, pw, subN, cpb, q =>
    if pw > 0 then
      let r := bc_num_subArrays false cpb.num subN.num subN.len
      let cpb := bc_num_clean { cpb with num := r.2 }
      let cmp := bc_num_divCmpF nw cpb len
      match d_dec_loop nw len subN pw (BC_BASE_POW.toNat + 2) cpb q cmp with
      | none => none
      | some cq =>
        let cpb := cq.1
        let q := cq.2
        let pw' := pw / BC_BASE
        if pw' ≠ 0 then
          let pad := cpb.num ++ List.replicate (cpblen - cpb.num.length) 0
          let r2 := bc_num_addArrays false pad subN.num subN.len
          let cpb := bc_num_clean { cpb with num := r2.2 }
          let dres := bc_num_divArray false subN 10 subN
          d_pow_loop nw len cpblen fuel pw' dres.2.1 cpb q
        else d_pow_loop nw len cpblen fuel pw' subN cpb q
    else some (cpb, q)

/-- The quotient-digit estimation of `bc_num_d_long` for the `cmp > 0`
case (num.c lines 968-1039): initial estimate from the two leading
cells, then refinement. -/
def d_estimate (nw : List Int) (b : BcNum) (len : Nat) (divisor : Int) :
    Option (Int × BcNum) :=
  let n1 := nw.getD len 0
  let dividend := n1 * BC_BASE_POW + nw.getD (len - 1) 0
  let q := dividend / divisor + 1
  let q := if q > BC_BASE_POW then BC_BASE_POW else q
  let digits := bc_num_log10 q.toNat
  let pw : Int := bc_num_pow10 (digits - 1)
  let cpb := (bc_num_mulArray false b q ⟨[], 0, 0, false⟩).2
  let subN := (bc_num_mulArray false b pw ⟨[], 0, 0, false⟩).2
  let cpblen := cpb.len
  match d_pow_loop nw len cpblen (BC_BASE_DIGS + 3) pw subN cpb q with
  | none => none
  | some cq => some (cq.2 - 1, cq.1)

/-- The per-digit loop of `bc_num_d_long` (num.c line 948), iterating `i`
from `end - 1` down to `rdx`; `cnt` is the number of digits still to
produce.  Returns the quotient digits for positions `[rdx, end)` least
significant first, and the final (mutated) dividend cells. -/
def d_digit_loop (b : BcNum) (len : Nat) (divisor : Int) (rdx : Nat) :
    List Int → Nat → Option (List Int × List Int)
  | aNum, 0 => some ([], aNum)
  | aNum, cnt + 1 =>
    let i := rdx + cnt
    let nw := aNum.drop i
    let cmp := bc_num_divCmpF nw b len
    match
      (if cmp = 0 then
        some ((1 : Int), (bc_num_mulArray false b 1 ⟨[], 0, 0, false⟩).2)
      else if cmp > 0 then d_estimate nw b len divisor
      else some ((0 : Int), ⟨[], 0, 0, false⟩) : Option (Int × BcNum))
    with
    | none => none
    | some qc =>
      let q := qc.1
      let cpb := qc.2
      let aNum := if q ≠ 0 then
          aNum.take i ++ (bc_num_subArrays false nw cpb.num len).2
        else aNum
      match d_digit_loop b len divisor rdx aNum cnt with
      | none => none
      | some r => some (r.1 ++ [q], r.2)

/-- `bc_num_d_long` (num.c line 921).  The cells of `c` below `rdx` are
never written by the C (they are dropped by the caller's `retireMul`
truncation before being observable); the model fills them with zeros. -/
def bc_num_d_long (sig : Bool) (a b c : BcNum) (scale : Nat) :
    Option (BcStatus × BcNum) :=
  let len := b.len
  let end_ := a.len - len
  let divisor := b.num.getD (len - 1) 0
  let rdx := a.rdx - BC_NUM_RDX scale
  if sig then
    some (BcStatus.signal,
      { c with num := List.replicate a.len 0, rdx := a.rdx, scale := a.scale })
  else
    match d_digit_loop b len divisor rdx a.num (end_ - rdx) with
    | none => none
    | some r =>
      some (BcStatus.success,
        { c with num := List.replicate rdx 0 ++ r.1 ++
                          List.replicate (a.len - end_) 0,
                 rdx := a.rdx, scale := a.scale })

/-- `bc_num_d` (num.c line 1061): division entry. -/
def bc_num_d (sig : Bool) (a b c : BcNum) (scale : Nat) :
    Option (BcStatus × BcNum) :=
  if b.len = 0 then some (BcStatus.divideByZero, c)
  else if a.len = 0 then some (BcStatus.success, bc_num_setToZero c scale)
  else if BC_NUM_ONE b then
    let c := bc_num_copy c a
    some (BcStatus.success, bc_num_retireMul c scale a.neg b.neg)
  else if a.rdx = 0 ∧ b.rdx = 0 ∧ b.len = 1 ∧ scale = 0 then
    let r := bc_num_divArray sig a (b.num.getD 0 0) c
    some (r.1, bc_num_retireMul r.2.1 scale a.neg b.neg)
  else
    let cpa := a
    let cpb := b
    let len := b.len
    let cpa := if len > cpa.len
               then bc_num_extend cpa ((len - cpa.len) * BC_BASE_DIGS) else cpa
    let cpa := { cpa with scale := cpa.rdx * BC_BASE_DIGS }
    let cpa := bc_num_extend cpa b.scale
    let cpa := { cpa with rdx := cpa.rdx - BC_NUM_RDX b.scale }
    let cpa := { cpa with scale := cpa.rdx * BC_BASE_DIGS }
    let cpa := if scale > cpa.scale then
        (let e := bc_num_extend cpa scale
         { e with scale := e.rdx * BC_BASE_DIGS }) else cpa
    -- the b->rdx == b->len branch shortens the local divisor length;
    -- d_long recomputes it from the trimmed cpb below
    let cpa := { cpa with num := cpa.num ++ [0] }
    let cpa := if cpa.rdx = cpa.len then { cpa with num := trimTop cpa.num }
               else cpa
    let cpb := if cpb.rdx = cpb.len then { cpb with num := trimTop cpb.num }
               else cpb
    let cpb := { cpb with scale := 0, rdx := 0 }
    match bc_num_d_long sig cpa cpb c scale with
    | none => none
    | some r =>
      if r.1 = BcStatus.success then
        some (BcStatus.success, bc_num_retireMul r.2 scale a.neg b.neg)
      else some r

/-- `bc_num_r` (num.c line 1136): quotient `c` and remainder `d`, where
`d = a - (a/b)*b` recomputed through multiplication and subtraction. -/
def bc_num_r (sig : Bool) (a b c d : BcNum) (scale ts : Nat) :
    Option (BcStatus × BcNum × BcNum) :=
  if b.len = 0 then some (BcStatus.divideByZero, c, d)
  else if a.len = 0 then
    some (BcStatus.success, bc_num_setToZero c ts, bc_num_setToZero d ts)
  else
    match bc_num_d sig a b c scale with
    | none => none
    | some rc =>
      if rc.1 ≠ BcStatus.success then some (rc.1, rc.2, d) else
      let c := rc.2
      let scale2 := if scale ≠ 0 then ts + 1 else scale
      match bc_num_m (mulFuel c b) sig c b ⟨[], 0, 0, false⟩ scale2 with
      | none => none
      | some rm =>
        if rm.1 ≠ BcStatus.success then some (rm.1, c, d) else
        let temp := rm.2
        let rsub := bc_num_sub sig a temp scale2
        if rsub.1 ≠ BcStatus.success then some (rsub.1, c, d) else
        let d := rsub.2
        let d := if ts > d.scale ∧ d.len ≠ 0 then bc_num_extend d (ts - d.scale)
                 else d
        let neg := d.neg
        let d := bc_num_retireMul d ts a.neg b.neg
        let d := if d.len ≠ 0 then { d with neg := neg }
                 else { d with neg := false }
        some (BcStatus.success, c, d)

/-- `bc_num_rem` (num.c line 1173). -/
def bc_num_rem (sig : Bool) (a b c : BcNum) (scale : Nat) :
    Option (BcStatus × BcNum) :=
  let ts := max (bc_vm_growSize scale b.scale) a.scale
  match bc_num_r sig a b ⟨[], 0, 0, false⟩ c scale ts with
  | none => none
  | some r => some (r.1, r.2.2)

/-- `bc_num_div` (num.c line 2064); value semantics of the dispatched
division with a freshly initialised output number. -/
def bc_num_div (sig : Bool) (a b : BcNum) (scale : Nat) :
    Option (BcStatus × BcNum) :=
  bc_num_d sig a b ⟨[], 0, 0, false⟩ scale

/-- `bc_num_mod` (num.c line 2068). -/
def bc_num_mod (sig : Bool) (a b : BcNum) (scale : Nat) :
    Option (BcStatus × BcNum) :=
  bc_num_rem sig a b ⟨[], 0, 0, false⟩ scale

/-- `bc_num_divmod` (num.c line 2216); `c` receives the quotient, `d` the
remainder. -/
def bc_num_divmod (sig : Bool) (a b c d : BcNum) (scale : Nat) :
    Option (BcStatus × BcNum × BcNum) :=
  let ts := max (scale + b.scale) a.scale
  if a.len ≠ 0 ∧ a.rdx = 0 ∧ b.rdx = 0 ∧ b.len = 1 ∧ scale = 0 then
    let r := bc_num_divArray sig a (b.num.getD 0 0) c
    let rem := r.2.2
    let d := { d with num := if rem ≠ 0 then [rem] else [] }
    some (r.1, r.2.1, d)
  else bc_num_r sig a b c d scale ts

/-- `bc_num_bigdig`'s accumulation loop (num.c line 1925), most
significant integer cell first, with the C's overflow checks. -/
def bigdig_go : List Int → Int → BcStatus × Int
  | [], r => (BcStatus.success, r)
  | x :: rest, r =>
    let prev := r * BC_BASE_POW
    if prev ≥ 2 ^ 64 then (BcStatus.overflow, 0)
    else
      let r' := prev + x
      if r' ≥ 2 ^ 64 then (BcStatus.overflow, 0)
      else bigdig_go rest r'

/-- `bc_num_bigdig` (num.c line 1916): convert the integer part to a
native unsigned integer. -/
def bc_num_bigdig (n : BcNum) : BcStatus × Int :=
  if n.neg then (BcStatus.negative, 0)
  else bigdig_go (n.num.drop n.rdx).reverse 0

/-- Digit list of a native value, for `bc_num_bigdig2num`. -/
def bigdigDigits_cnt : Nat → Nat → List Int
  | 0, _ => []
  | fuel + 1, v =>
    if v = 0 then [] else ((v % BC_BASE_POW.toNat : Nat) : Int) ::
      bigdigDigits_cnt fuel (v / BC_BASE_POW.toNat)

def bigdigDigits (v : Nat) : List Int := bigdigDigits_cnt v v

/-- `bc_num_bigdig2num` (num.c line 1942). -/
def bc_num_bigdig2num (n : BcNum) (val : Nat) : BcNum :=
  { bc_num_zero_fn n with num := bigdigDigits val }

/-- `bc_num_inv` (num.c line 505): `1 / a`. -/
def bc_num_inv (sig : Bool) (a : BcNum) (scale : Nat) :
    Option (BcStatus × BcNum) :=
  bc_num_div sig ⟨[1], 0, 0, false⟩ a scale

/-- The even-exponent squaring loop of `bc_num_p` (num.c line 1226). -/
def p_evenLoop : Nat → Nat → BcNum → BcStatus →
    Option (BcStatus × Nat × Nat × BcNum)
  | pow, powrdx, copy, s =>
    if _h : pow ≠ 0 ∧ pow % 2 = 0 then
      let powrdx := powrdx * 2
      match bc_num_mul false copy copy powrdx with
      | none => none
      | some r =>
        if r.1 = BcStatus.signal then some (r.1, pow, powrdx, copy)
        else p_evenLoop (pow / 2) powrdx r.2 r.1
    else some (s, pow, powrdx, copy)
termination_by pow _ _ _ => pow
decreasing_by exact Nat.div_lt_self (Nat.pos_of_ne_zero _h.1) (by omega)

/-- The square-and-multiply loop of `bc_num_p` (num.c line 1237). -/
def p_oddLoop : Nat → Nat → Nat → BcNum → BcNum → BcStatus →
    Option (BcStatus × BcNum)
  | pow, powrdx, resrdx, copy, c, s =>
    let pow' := pow / 2
    if _h : pow' ≠ 0 then
      let powrdx := powrdx * 2
      match bc_num_mul false copy copy powrdx with
      | none => none
      | some r =>
        if r.1 = BcStatus.signal then some (r.1, c) else
        let copy := r.2
        if pow' % 2 = 1 then
          let resrdx := resrdx + powrdx
          match bc_num_mul false c copy resrdx with
          | none => none
          | some r2 =>
            if r2.1 = BcStatus.signal then some (r2.1, r2.2)
            else p_oddLoop pow' powrdx resrdx copy r2.2 r2.1
        else p_oddLoop pow' powrdx resrdx copy c r.1
    else some (s, c)
termination_by pow _ _ _ _ _ => pow
decreasing_by
  · exact Nat.div_lt_self (by omega) (by omega)
  · exact Nat.div_lt_self (by omega) (by omega)

/-- `bc_num_p` (num.c line 1189): integer power. -/
def bc_num_p (sig : Bool) (a b c : BcNum) (scale : Nat) :
    Option (BcStatus × BcNum) :=
  if b.rdx ≠ 0 then some (BcStatus.nonInteger, c)
  else if b.len = 0 then some (BcStatus.success, bc_num_one_fn c)
  else if a.len = 0 then some (BcStatus.success, bc_num_setToZero c scale)
  else if BC_NUM_ONE b then
    if ¬ b.neg then some (BcStatus.success, bc_num_copy c a)
    else bc_num_inv sig a scale
  else
    let neg := b.neg
    let rbig := bc_num_bigdig { b with neg := false }
    if rbig.1 ≠ BcStatus.success then some (rbig.1, c) else
    let pow := rbig.2.toNat
    let copy := a
    let scale := if ¬ neg then min (a.scale * pow) (max scale a.scale)
                 else scale
    if sig then some (BcStatus.signal, c) else
    match p_evenLoop pow a.scale copy BcStatus.success with
    | none => none
    | some r1 =>
      if r1.1 = BcStatus.signal then some (r1.1, c) else
      let pow := r1.2.1
      let powrdx := r1.2.2.1
      let copy := r1.2.2.2
      let c := bc_num_copy c copy
      let resrdx := powrdx
      match p_oddLoop pow powrdx resrdx copy c r1.1 with
      | none => none
      | some r2 =>
        if r2.1 = BcStatus.signal then some (r2.1, r2.2) else
        let c := r2.2
        match
          (if neg then bc_num_inv sig c scale
           else some (r2.1, c) : Option (BcStatus × BcNum)) with
        | none => none
        | some r3 =>
          if r3.1 = BcStatus.signal then some (r3.1, r3.2) else
          let s := r3.1
          let c := r3.2
          let c := if c.scale > scale then bc_num_truncate c (c.scale - scale)
                   else c
          let c := if c.num.all (· = 0) then bc_num_setToZero c scale else c
          some (s, c)

/-- `bc_num_pow` (num.c line 2073). -/
def bc_num_pow (sig : Bool) (a b : BcNum) (scale : Nat) :
    Option (BcStatus × BcNum) :=
  bc_num_p sig a b ⟨[], 0, 0, false⟩ scale

/-- The square-and-multiply loop of `bc_num_modexp` (num.c line 2288);
`fuel` bounds the iterations (the exponent halves each time). -/
def modexp_loop (sig : Bool) (c : BcNum) :
    Nat → BcNum → BcNum → BcNum → Option (BcStatus × BcNum)
  | 0, _, _, _ => none
  | fuel + 1, exp, base, d =>
    if sig then some (BcStatus.signal, d)
    else if exp.len = 0 then some (BcStatus.success, d)
    else
      match bc_num_divmod sig exp ⟨[2], 0, 0, false⟩ ⟨[], 0, 0, false⟩
          ⟨[], 0, 0, false⟩ 0 with
      | none => none
      | some rdm =>
        if rdm.1 = BcStatus.signal then some (rdm.1, d) else
        let exp := rdm.2.1
        let temp := rdm.2.2
        match
          (if BC_NUM_ONE temp ∧ ¬ temp.neg then
            match bc_num_mul false d base 0 with
            | none => none
            | some rm =>
              if rm.1 = BcStatus.signal then some (some rm.1, d) else
              match bc_num_rem sig rm.2 c ⟨[], 0, 0, false⟩ 0 with
              | none => none
              | some rr =>
                if rr.1 = BcStatus.signal then some (some rr.1, d)
                else some (none, rr.2)
          else some (none, d) : Option (Option BcStatus × BcNum)) with
        | none => none
        | some (some s, d) => some (s, d)
        | some (none, d) =>
          match bc_num_mul false base base 0 with
          | none => none
          | some rm2 =>
            if rm2.1 = BcStatus.signal then some (rm2.1, d) else
            match bc_num_rem sig rm2.2 c ⟨[], 0, 0, false⟩ 0 with
            | none => none
            | some rr2 =>
              if rr2.1 = BcStatus.signal then some (rr2.1, d)
              else modexp_loop sig c fuel exp rr2.2 d

/-- `bc_num_modexp` (num.c line 2259): `d = a^b mod c`. -/
def bc_num_modexp (sig : Bool) (a b c : BcNum) : Option (BcStatus × BcNum) :=
  if c.len = 0 then some (BcStatus.divideByZero, ⟨[], 0, 0, false⟩)
  else if b.neg then some (BcStatus.negative, ⟨[], 0, 0, false⟩)
  else if a.rdx ≠ 0 ∨ b.rdx ≠ 0 ∨ c.rdx ≠ 0 then
    some (BcStatus.nonInteger, ⟨[], 0, 0, false⟩)
  else
    let d := bc_num_one_fn ⟨[], 0, 0, false⟩
    match bc_num_rem sig a c ⟨[], 0, 0, false⟩ 0 with
    | none => none
    | some rb =>
      if rb.1 = BcStatus.signal then some (rb.1, d) else
      let base := rb.2
      modexp_loop sig c (b.len * 64 + 64) b base d

/-- The `half` constant of `bc_num_sqrt` (num.c lines 2130-2134):
`0.5` as a single fractional cell. -/
def sqrtHalf : BcNum := ⟨[500000000], 1, 1, false⟩

/-- The Newton iteration of `bc_num_sqrt` (num.c line 2160).  `fuel`
bounds the iterations; the C loop terminates through its convergence
oracle, which the model does not re-prove — exhaustion returns `none`
and corresponds to no successful C return. -/
def sqrt_loop (a : BcNum) (len : Nat) :
    Nat → BcNum → Nat → Int → Int → Int → Nat → Nat → Nat →
    Option (BcStatus × BcNum)
  | 0, _, _, _, _, _, _, _, _ => none
  | fuel + 1, x0, resscale, cmp, cmp1, cmp2, digs, digs1, times =>
    if cmp ≠ 0 ∨ digs < len then
      match bc_num_div false a x0 resscale with
      | none => none
      | some rf =>
        if rf.1 = BcStatus.signal then some (rf.1, x0) else
        let f := rf.2
        let rfp := bc_num_add false x0 f resscale
        if rfp.1 = BcStatus.signal then some (rfp.1, x0) else
        let fprime := rfp.2
        match bc_num_mul false fprime sqrtHalf resscale with
        | none => none
        | some rx1 =>
          if rx1.1 = BcStatus.signal then some (rx1.1, x0) else
          let x1 := rx1.2
          match bc_num_cmp false x1 x0 with
          | none => some (BcStatus.signal, x0)
          | some cmpv =>
            let digs := x1.len - cmpv.natAbs
            let times := if cmpv = cmp2 ∧ digs = digs1 then times + 1 else 0
            let resscale := resscale + (if times > 2 then 1 else 0)
            sqrt_loop a len fuel x1 resscale cmpv cmpv cmp1 digs digs times
    else some (BcStatus.success, x0)

/-- The estimate-and-iterate part of `bc_num_sqrt` (num.c lines
2139-2203), after the zero/one early returns; `a` is nonzero and not
one, `scale` already raised to `a.scale`. -/
def bc_num_sqrt_core (sig : Bool) (a : BcNum) (scale : Nat) :
    Option (BcStatus × BcNum) :=
  let x0 : BcNum := ⟨[1], 0, 0, false⟩
  let pow := bc_num_intDigits a
  match
    (if pow ≠ 0 then
      let x0 := { x0 with num := [if pow % 2 = 1 then 2 else 6] }
      let pow := pow - (2 - pow % 2)
      let r := bc_num_shiftLeft sig x0 (pow / 2)
      if r.1 = BcStatus.signal then none else some r.2
    else some x0 : Option BcNum) with
  | none => some (BcStatus.signal, ⟨[], 0, 0, false⟩)
  | some x0 =>
    let x0 := { x0 with scale := 0, rdx := 0 }
    let resscale := (scale + BC_BASE_DIGS) * 2
    let len := BC_NUM_RDX (bc_num_intDigits x0 + resscale - 1)
    if sig then some (BcStatus.signal, x0) else
    match sqrt_loop a len ((a.len + scale) * 8 + 64) x0 resscale 1
        (2 ^ 63 - 1) (2 ^ 63 - 1) 0 0 0 with
    | none => none
    | some r =>
      if r.1 ≠ BcStatus.success then some r else
      let b := bc_num_copy ⟨[], 0, 0, false⟩ r.2
      let b := if b.scale > scale then bc_num_truncate b (b.scale - scale)
               else b
      some (BcStatus.success, b)

/-- `bc_num_sqrt` (num.c line 2094) on distinct numbers (the C asserts
`a != b`); the aliased behaviour is modelled by `bc_num_sqrt_ptr`. -/
def bc_num_sqrt (sig : Bool) (a : BcNum) (scale : Nat) :
    Option (BcStatus × BcNum) :=
  if a.neg then some (BcStatus.negative, ⟨[], 0, 0, false⟩)
  else
    let scale := if a.scale > scale then a.scale else scale
    if a.len = 0 then
      some (BcStatus.success, bc_num_setToZero ⟨[], 0, 0, false⟩ scale)
    else if BC_NUM_ONE a then
      some (BcStatus.success, bc_num_extend (bc_num_one_fn ⟨[], 0, 0, false⟩) scale)
    else bc_num_sqrt_core sig a scale

/-! ### Pointer-level model of the aliasing dispatchers

Numbers live in a heap addressed by `Nat` pointers; the dispatchers
compare pointers exactly as the C compares addresses. -/

/-- Write through a pointer. -/
def heapUpdate (h : Nat → BcNum) (p : Nat) (v : BcNum) : Nat → BcNum :=
  fun q => if q = p then v else h q

/-- `bc_num_binary` (num.c line 1317): resolve aliasing of the output
with either input by saving the output's contents (`num2`) before
reinitialising it, then run the operation.  The operation is the pure
value function of the inner op: after the dispatch its output object is
distinct from both operand objects, so this is faithful. -/
def bc_num_binary_ptr (h : Nat → BcNum) (a b c : Nat) (scale : Nat)
    (op : BcNum → BcNum → BcNum → Nat → BcStatus × BcNum) (req : Nat) :
    BcStatus × (Nat → BcNum) :=
  let num2 := h c
  let ptr_a := if c = a then num2 else h a
  let ptr_b := if c = b then num2 else h b
  let init := c = a ∨ c = b
  let cval := if init then (⟨[], 0, 0, false⟩ : BcNum)
              else bc_num_expand (h c) req
  let r := op ptr_a ptr_b cval scale
  (r.1, heapUpdate h c r.2)

/-- `bc_num_divmod`'s aliasing prologue (num.c lines 2228-2237): only
`c == a` is resolved (the other aliasings are excluded by its
assertion). -/
def bc_num_divmod_ptr (h : Nat → BcNum) (a b c d : Nat) (scale : Nat) :
    Option (BcStatus × (Nat → BcNum)) :=
  let ptr_a := if c = a then h c else h a
  let cval := if c = a then (⟨[], 0, 0, false⟩ : BcNum) else h c
  match bc_num_divmod false ptr_a (h b) cval (h d) scale with
  | none => none
  | some r =>
    some (r.1, heapUpdate (heapUpdate h c r.2.1) d r.2.2)

/-- `bc_num_sqrt` at the pointer level (num.c lines 2094-2121): the C
asserts `a != b` and then reinitialises `*b` before reading `*a`'s
cells, so an aliased call (violating the assertion) zeroes its own
input and returns `0`. -/
def bc_num_sqrt_ptr (h : Nat → BcNum) (aP bP : Nat) (scale : Nat) :
    Option (BcStatus × (Nat → BcNum)) :=
  let a := h aP
  if a.neg then some (BcStatus.negative, h)
  else
    let scale := if a.scale > scale then a.scale else scale
    -- bc_num_init(b, ...): fresh zero state at bP
    let h := heapUpdate h bP ⟨[], 0, 0, false⟩
    let a := h aP
    if a.len = 0 then
      some (BcStatus.success,
        heapUpdate h bP (bc_num_setToZero ⟨[], 0, 0, false⟩ scale))
    else if BC_NUM_ONE a then
      some (BcStatus.success,
        heapUpdate h bP (bc_num_extend (bc_num_one_fn ⟨[], 0, 0, false⟩) scale))
    else
      match bc_num_sqrt_core false a scale with
      | none => none
      | some r => some (r.1, heapUpdate h bP r.2)

/-! ### Printing and parsing -/

/-- `line_len` (modelled from the spec: typically 70). -/
def line_len : Nat := 70

/-- `BC_NUM_MAX_POSIX_IBASE` (modelled from the spec: 16). -/
def BC_NUM_MAX_POSIX_IBASE : Int := 16

/-- Printer state: emitted characters and the current line's character
count (`vm->nchars`, modelled from the spec: the sink counts characters
and resets at a newline). -/
def bc_vm_putchar (st : List Char × Nat) (c : Char) : List Char × Nat :=
  (st.1 ++ [c], if c = '\n' then 0 else st.2 + 1)

/-- `bc_num_printNewline` (num.c line 1541): wrap the line with
backslash-newline when full. -/
def bc_num_printNewline (st : List Char × Nat) : List Char × Nat :=
  if st.2 ≥ line_len - 1 then bc_vm_putchar (bc_vm_putchar st '\\') '\n'
  else st

/-- `bc_num_putchar` (num.c line 1548). -/
def bc_num_putchar (st : List Char × Nat) (c : Char) : List Char × Nat :=
  let st := if c ≠ '\n' then bc_num_printNewline st else st
  bc_vm_putchar st c

/-- The `bc_num_hex_digits` table (modelled from the spec). -/
def bc_num_hex_digits : List Char :=
  ['0', '1', '2', '3', '4', '5', '6', '7', '8', '9',
   'A', 'B', 'C', 'D', 'E', 'F']

/-- `bc_num_printHex` (num.c line 1577). -/
def bc_num_printHex (st : List Char × Nat) (n : Nat) (_len : Nat)
    (rdx : Bool) : List Char × Nat :=
  let st := if rdx then bc_num_putchar st '.' else st
  bc_num_putchar st (bc_num_hex_digits.getD n '?')

/-- Digit-emitting loop of `bc_num_printDigits` (num.c line 1570). -/
def printDigits_go (st : List Char × Nat) (n pw : Nat) : Nat →
    List Char × Nat
  | 0 => st
  | cnt + 1 =>
    let dig := n / pw
    let st := bc_num_putchar st (Char.ofNat (dig % 10 + '0'.toNat))
    printDigits_go st (n - dig * pw) (pw / 10) cnt

/-- `bc_num_printDigits` (num.c line 1562): multi-character digit with a
leading space or radix point. -/
def bc_num_printDigits (st : List Char × Nat) (n : Nat) (len : Nat)
    (rdx : Bool) : List Char × Nat :=
  let st := bc_num_putchar st (if rdx then '.' else ' ')
  printDigits_go st n (10 ^ (len - 1)) len

/-- Decimal digit `j` of a cell. -/
def pdCellDigit (n9 : Int) (j : Nat) : Nat := n9.toNat / 10 ^ j % 10

/-- Per-cell digit loop of `bc_num_printDecimal` (num.c line 1613),
from digit position 8 down to `temp`; `cnt` counts remaining digits. -/
def printDecimal_cellLoop (irdx : Bool) (n9 : Int) (temp : Nat) :
    Nat → (List Char × Nat) × Bool → (List Char × Nat) × Bool
  | 0, acc => acc
  | cnt + 1, (st, zero) =>
    let j := temp + cnt
    let print_rdx := irdx ∧ j = BC_BASE_DIGS - 1
    let zero := zero ∧ pdCellDigit n9 j = 0
    let st := if ¬ zero then bc_num_printHex st (pdCellDigit n9 j) 1 print_rdx
              else st
    printDecimal_cellLoop irdx n9 temp cnt (st, zero)

/-- Cell loop of `bc_num_printDecimal` (num.c line 1596), most
significant cell first; `cnt` counts remaining cells. -/
def printDecimal_cells (n : BcNum) : Nat → (List Char × Nat) × Bool →
    (List Char × Nat) × Bool
  | 0, acc => acc
  | cnt + 1, (st, zero) =>
    let i := cnt
    let n9 := n.num.getD i 0
    let irdx := n.rdx ≠ 0 ∧ i + 1 = n.rdx
    let zero := zero ∧ ¬ irdx
    let t0 := n.scale % BC_BASE_DIGS
    let temp := if i ≠ 0 ∨ t0 = 0 then 0 else BC_BASE_DIGS - t0
    let acc := printDecimal_cellLoop irdx n9 temp (BC_BASE_DIGS - temp)
      (st, zero)
    printDecimal_cells n cnt acc

/-- `bc_num_printDecimal` (num.c line 1588). -/
def bc_num_printDecimal (st : List Char × Nat) (n : BcNum) :
    List Char × Nat :=
  let st := if n.neg then bc_num_putchar st '-' else st
  (printDecimal_cells n n.len (st, true)).1

/-- Integer-part loop of `bc_num_printNum` (num.c line 1715): divide by
the base, pushing remainders; fuel bounds the iterations (the value
shrinks each step). -/
def printNum_intLoop (base : Int) : Nat → BcNum → List Int →
    Option (List Int)
  | 0, _, _ => none
  | fuel + 1, n1, stack =>
    if n1.len ≠ 0 then
      let r := bc_num_divArray false n1 base ⟨[], 0, 0, false⟩
      printNum_intLoop base fuel r.2.1 (stack ++ [r.2.2])
    else some stack

/-- Fraction loop of `bc_num_printNum` (num.c line 1743): multiply the
fraction by the base and emit the integer digit, until enough output
precision (`flen` tracks `base^k` against `10^scale`). -/
def printNum_fracLoop (base : Int) (scale len : Nat)
    (print : (List Char × Nat) → Nat → Nat → Bool → (List Char × Nat)) :
    Nat → BcNum → BcNum → Bool → (List Char × Nat) →
    Option (List Char × Nat)
  | 0, _, _, _, _ => none
  | fuel + 1, fracp1, flen1, radix, st =>
    if bc_num_intDigits flen1 < scale + 1 then
      let fracp2 := (bc_num_mulArray false fracp1 base ⟨[], 0, 0, false⟩).2
      let fracp2 := { fracp2 with scale := scale, rdx := BC_NUM_RDX scale }
      -- `bc_num_bigdig` cannot fail here (the value is below the base)
      let dig := (bc_num_bigdig fracp2).2.toNat
      let digit := bc_num_bigdig2num ⟨[], 0, 0, false⟩ dig
      let rs := bc_num_sub false fracp2 digit 0
      let st := print st dig len radix
      let flen2 := (bc_num_mulArray false flen1 base ⟨[], 0, 0, false⟩).2
      printNum_fracLoop base scale len print fuel rs.2 flen2 false st
    else some st

/-- `bc_num_printNum` (num.c line 1679). -/
def bc_num_printNum (sig : Bool) (n : BcNum) (base : Int) (len : Nat)
    (print : (List Char × Nat) → Nat → Nat → Bool → (List Char × Nat))
    (st : List Char × Nat) : Option (BcStatus × (List Char × Nat)) :=
  if n.len = 0 then some (BcStatus.success, print st 0 len false)
  else
    let intp1 := bc_num_truncate n n.scale
    let rsub := bc_num_sub sig n intp1 0
    if rsub.1 = BcStatus.signal then some (rsub.1, st) else
    let fracp1 := rsub.2
    if sig then some (BcStatus.signal, st) else
    match printNum_intLoop base (n.len * 32 + 34) intp1 [] with
    | none => none
    | some stack =>
      let st := stack.reverse.foldl (fun s dg => print s dg.toNat len false) st
      if n.scale = 0 then some (BcStatus.success, st)
      else
        match printNum_fracLoop base n.scale len print (n.scale * 4 + 8)
            fracp1 ⟨[1], 0, 0, false⟩ true st with
        | none => none
        | some st => some (BcStatus.success, st)

/-- `bc_num_printBase` (num.c line 1783). -/
def bc_num_printBase (sig : Bool) (n : BcNum) (base : Int)
    (st : List Char × Nat) : Option (BcStatus × (List Char × Nat)) :=
  let st := if n.neg then bc_num_putchar st '-' else st
  let n' := { n with neg := false }
  if base ≤ BC_NUM_MAX_POSIX_IBASE then
    bc_num_printNum sig n' base 1 bc_num_printHex st
  else
    bc_num_printNum sig n' base (bc_num_log10 (base - 1).toNat)
      bc_num_printDigits st

/-- `bc_num_print` (num.c line 1894).  The `base ∈ {0, 1}` exponent
branch is behind `BC_ENABLE_EXTRA_MATH` and outside the bases the claims
cover. -/
def bc_num_print (sig : Bool) (n : BcNum) (base : Int) (newline : Bool)
    (st : List Char × Nat) : Option (BcStatus × (List Char × Nat)) :=
  let st := bc_num_printNewline st
  match
    (if n.len = 0 then some (BcStatus.success, bc_num_printHex st 0 1 false)
     else if base = BC_BASE then some (BcStatus.success, bc_num_printDecimal st n)
     else bc_num_printBase sig n base st : Option (BcStatus × (List Char × Nat)))
  with
  | none => none
  | some r =>
    if r.1 = BcStatus.success ∧ newline then
      some (r.1, bc_num_putchar r.2 '\n')
    else some r

/-- `bc_num_parseChar` (num.c line 1382).  The C returns
`(BcBigDig) (uchar) c` after `c -= '0'`, so a character below `'0'`
wraps modulo 256 (e.g. a space yields 240). -/
def bc_num_parseChar (c : Char) (base_t : Nat) : Int :=
  if c.isUpper then
    let v := c.toNat - 'A'.toNat + 10
    ((if v ≥ base_t then base_t - 1 else v : Nat) : Int)
  else (((c.toNat + 256 - '0'.toNat) % 256 : Nat) : Int)

/-- `BC_NUM_ROUND_POW` (modelled from the spec: round a decimal digit
count up to whole cells). -/
def BC_NUM_ROUND_POW (i : Nat) : Nat :=
  (i + BC_BASE_DIGS - 1) / BC_BASE_DIGS * BC_BASE_DIGS

/-- Character loop of `bc_num_parseDecimal` (num.c line 1437),
processing the string from its last character; `exp` is the current
decimal exponent and `pw` the in-cell multiplier. -/
def pd_loop : List Char → Nat → Int → List Int → List Int
  | [], _, _, cells => cells
  | ch :: rest, exp, pw, cells =>
    if ch = '.' then pd_loop rest exp pw cells
    else
      let c := if ch.isUpper then '9' else ch
      let idx := exp / BC_BASE_DIGS
      let cells := cells.set idx
        (cells.getD idx 0 + ((c.toNat : Int) - ('0'.toNat : Int)) * pw)
      let pw := if (exp + 1) % BC_BASE_DIGS = 0 then 1 else pw * BC_BASE
      pd_loop rest (exp + 1) pw cells

/-- `bc_num_parseDecimal` (num.c line 1393). -/
def bc_num_parseDecimal (val : List Char) : BcNum :=
  let i0 := (val.takeWhile (· == '0')).length
  let val := val.drop i0
  if val = [] then ⟨[], 0, 0, false⟩
  else
    let len := val.length
    let dotIdx := val.indexOf '.'
    let rdx := dotIdx < len
    let firstSig := (val.takeWhile (fun c => c = '0' ∨ c = '.')).length
    let zero := firstSig = len
    let scale := if rdx then len - (dotIdx + 1) else 0
    let rdxCells := BC_NUM_RDX scale
    if zero then ⟨[], 0, scale, false⟩
    else
      let digCnt := len - (if dotIdx = 0 then 0 else firstSig) -
        (if rdx then 1 else 0)
      let temp := BC_NUM_ROUND_POW digCnt
      let md := scale % BC_BASE_DIGS
      let pad := if md ≠ 0 then BC_BASE_DIGS - md else 0
      let nlen := (temp + pad) / BC_BASE_DIGS
      let cells := pd_loop val.reverse pad (bc_num_pow10 pad)
        (List.replicate nlen 0)
      ⟨cells, rdxCells, scale, false⟩

/-- Integer-part loop of `bc_num_parseBase` (num.c line 1472):
`n ← n·base + digit`. -/
def parseBase_int (sig : Bool) (base : Int) :
    List Char → BcNum → BcStatus × BcNum × List Char
  | [], n => (BcStatus.success, n, [])
  | c :: rest, n =>
    if c = '.' then (BcStatus.success, n, c :: rest)
    else
      let v := bc_num_parseChar c base.toNat
      let r1 := bc_num_mulArray sig n base ⟨[], 0, 0, false⟩
      if r1.1 = BcStatus.signal then (r1.1, n, rest)
      else
        let temp := bc_num_bigdig2num ⟨[], 0, 0, false⟩ v.toNat
        let r2 := bc_num_add sig r1.2 temp 0
        if r2.1 ≠ BcStatus.success then (r2.1, r2.2, rest)
        else parseBase_int sig base rest r2.2

/-- Fraction loop of `bc_num_parseBase` (num.c line 1494): accumulate
`result ← result·base + digit` and `m ← m·base`. -/
def parseBase_frac (sig : Bool) (base : Int) :
    List Char → BcNum → BcNum → Nat → BcStatus × BcNum × BcNum × Nat
  | [], result1, m1, digs => (BcStatus.success, result1, m1, digs)
  | c :: rest, result1, m1, digs =>
    if sig then (BcStatus.signal, result1, m1, digs)
    else
      let v := bc_num_parseChar c base.toNat
      let r1 := bc_num_mulArray false result1 base ⟨[], 0, 0, false⟩
      let temp := bc_num_bigdig2num ⟨[], 0, 0, false⟩ v.toNat
      let r2 := bc_num_add false r1.2 temp 0
      let m2 := (bc_num_mulArray false m1 base ⟨[], 0, 0, false⟩).2
      parseBase_frac sig base rest r2.2 m2 (digs + 1)

/-- `bc_num_parseBase` (num.c line 1456). -/
def bc_num_parseBase (sig : Bool) (n0 : BcNum) (val : List Char)
    (base : Int) : Option (BcStatus × BcNum) :=
  if val.all (fun c => c = '.' ∨ c = '0') then some (BcStatus.success, n0)
  else
    match parseBase_int sig base val n0 with
    | (s, n, rest) =>
      if s ≠ BcStatus.success then some (s, n)
      else
        match rest with
        | [] => some (BcStatus.success, n)
        | _ :: fracChars =>
          match parseBase_frac sig base fracChars ⟨[], 0, 0, false⟩
              ⟨[1], 0, 0, false⟩ 0 with
          | (s, result1, m1, digs) =>
            if s ≠ BcStatus.success then some (s, n)
            else
              match bc_num_div sig result1 m1 (digs * 2) with
              | none => none
              | some rd =>
                if rd.1 = BcStatus.signal then some (rd.1, n) else
                let result2 := bc_num_truncate rd.2 digs
                let ra := bc_num_add sig n result2 digs
                if ra.1 = BcStatus.signal then some (ra.1, n) else
                let n := ra.2
                let n := if n.len ≠ 0 then
                    (if n.scale < digs then bc_num_extend n (digs - n.scale)
                     else n)
                  else bc_num_zero_fn n
                some (BcStatus.success, n)

/-- `bc_num_parse` (num.c line 1874). -/
def bc_num_parse (sig : Bool) (val : List Char) (base : Int)
    (letter : Bool) : Option (BcStatus × BcNum) :=
  if letter then
    some (BcStatus.success,
      bc_num_bigdig2num ⟨[], 0, 0, false⟩ (bc_num_parseChar (val.getD 0 '0') 36).toNat)
  else if base = BC_BASE then some (BcStatus.success, bc_num_parseDecimal val)
  else bc_num_parseBase sig ⟨[], 0, 0, false⟩ val base

/-- The weakened top-cell invariant actually established by
`bc_num_clean`: sign cleared on zero, `rdx ≤ len` when nonzero, and a
zero top cell only for a purely fractional number re-extended to
`len = rdx`. -/
def WFweak (n : BcNum) : Prop :=
  (n.len = 0 → n.neg = false) ∧
  (n.len ≠ 0 → n.rdx ≤ n.len) ∧
  (n.len ≠ 0 → n.num.getLast?.getD 0 ≠ 0 ∨ n.len = n.rdx)

/-- Status set reachable from the multiplication tree. -/
def MulOk (s : BcStatus) : Prop :=
  s = BcStatus.success ∨ s = BcStatus.signal ∨ s = BcStatus.overflow

/-! ### Basic lemmas -/

theorem BC_NUM_ZERO_iff (n : BcNum) : BC_NUM_ZERO n ↔ n.num = [] := by
  simp [BC_NUM_ZERO, BcNum.len, List.length_eq_zero]

theorem bc_num_clean_scale (n : BcNum) : (bc_num_clean n).scale = n.scale := by
  simp only [bc_num_clean]
  split_ifs <;> rfl

theorem bc_num_extend_scale (n : BcNum) (p : Nat) :
    (bc_num_extend n p).scale = n.scale + p := by
  simp only [bc_num_extend]
  split_ifs with h
  · simp [h]
  · rfl

theorem bc_num_cmp_false_isSome (a b : BcNum) :
    (bc_num_cmp false a b).isSome := by
  simp only [bc_num_cmp, bc_num_compare, if_false]
  repeat' split
  all_goals simp_all

theorem bc_num_addArrays_fst (sig : Bool) (a b : List Int) (l : Nat) :
    (bc_num_addArrays sig a b l).1 =
      if sig then BcStatus.signal else BcStatus.success := by
  unfold bc_num_addArrays; split <;> simp_all

theorem bc_num_subArrays_fst (sig : Bool) (a b : List Int) (l : Nat) :
    (bc_num_subArrays sig a b l).1 =
      if sig then BcStatus.signal else BcStatus.success := by
  unfold bc_num_subArrays; split <;> simp_all

theorem bc_num_mulArray_fst (sig : Bool) (a : BcNum) (b : Int) (c : BcNum) :
    (bc_num_mulArray sig a b c).1 =
      if sig then BcStatus.signal else BcStatus.success := by
  unfold bc_num_mulArray; split <;> simp_all

theorem bc_num_divArray_fst (sig : Bool) (a : BcNum) (b : Int) (c : BcNum) :
    (bc_num_divArray sig a b c).1 =
      if sig then BcStatus.signal else BcStatus.success := by
  unfold bc_num_divArray; split <;> simp_all

theorem bc_num_m_simp_fst (sig : Bool) (a b c : BcNum) :
    (bc_num_m_simp sig a b c).1 =
      if sig then BcStatus.signal else BcStatus.success := by
  unfold bc_num_m_simp; split <;> simp_all

theorem bc_num_shift_fst (sig : Bool) (n : BcNum) (dig : Nat) :
    (bc_num_shift sig n dig).1 =
      if sig then BcStatus.signal else BcStatus.success := by
  unfold bc_num_shift; split <;> simp_all

theorem bc_num_a_fst (sig : Bool) (a b : BcNum) (sub : Bool) :
    (bc_num_a sig a b sub).1 =
      if ¬ BC_NUM_ZERO a ∧ ¬ BC_NUM_ZERO b ∧ sig = true then BcStatus.signal
      else BcStatus.success := by
  unfold bc_num_a
  repeat' split
  all_goals simp_all

theorem bc_num_s_core_fst (sig : Bool) (m s : BcNum) (neg : Bool) :
    (bc_num_s_core sig m s neg).1 =
      if sig then BcStatus.signal else BcStatus.success := by
  unfold bc_num_s_core
  exact bc_num_subArrays_fst sig _ _ _

theorem bc_num_cmp_sig_ne_zero (a b : BcNum) (ha : ¬ BC_NUM_ZERO a)
    (hb : ¬ BC_NUM_ZERO b) : bc_num_cmp true a b ≠ some 0 := by
  unfold bc_num_cmp bc_num_compare
  repeat' split
  all_goals simp_all

theorem bc_num_s_fst (sig : Bool) (a b : BcNum) (sub : Bool) :
    (bc_num_s sig a b sub).1 =
      if ¬ BC_NUM_ZERO a ∧ ¬ BC_NUM_ZERO b ∧ sig = true then BcStatus.signal
      else BcStatus.success := by
  unfold bc_num_s
  split
  · simp_all
  split
  · simp_all
  rename_i ha hb
  cases hsig : sig with
  | false =>
    simp only [Bool.false_eq_true, and_false, if_false]
    obtain ⟨cmp, hcmp⟩ := Option.isSome_iff_exists.mp
      (bc_num_cmp_false_isSome { a with neg := false } { b with neg := false })
    rw [hcmp]
    dsimp only
    split
    · rfl
    · simp [bc_num_s_core_fst]
  | true =>
    simp only [ha, hb, not_false_iff, true_and, if_true]
    have hz : ¬ BC_NUM_ZERO { a with neg := false } := ha
    have hz2 : ¬ BC_NUM_ZERO { b with neg := false } := hb
    cases hcmp : bc_num_cmp true { a with neg := false } { b with neg := false } with
    | none => rfl
    | some cmp =>
      dsimp only
      have hne := bc_num_cmp_sig_ne_zero { a with neg := false }
        { b with neg := false } hz hz2
      rw [hcmp] at hne
      split
      · simp_all
      · simp [bc_num_s_core_fst]

theorem bc_num_add_fst (sig : Bool) (a b : BcNum) (s : Nat) :
    (bc_num_add sig a b s).1 =
      if ¬ BC_NUM_ZERO a ∧ ¬ BC_NUM_ZERO b ∧ sig = true then BcStatus.signal
      else BcStatus.success := by
  unfold bc_num_add
  split
  · exact bc_num_a_fst sig a b false
  · exact bc_num_s_fst sig a b false

theorem bc_num_sub_fst (sig : Bool) (a b : BcNum) (s : Nat) :
    (bc_num_sub sig a b s).1 =
      if ¬ BC_NUM_ZERO a ∧ ¬ BC_NUM_ZERO b ∧ sig = true then BcStatus.signal
      else BcStatus.success := by
  unfold bc_num_sub
  split
  · exact bc_num_s_fst sig a b true
  · exact bc_num_a_fst sig a b true

theorem bc_num_add_status (sig : Bool) (a b : BcNum) (s : Nat) :
    (bc_num_add sig a b s).1 = BcStatus.success ∨
      (bc_num_add sig a b s).1 = BcStatus.signal := by
  rw [bc_num_add_fst]; split <;> simp

theorem bc_num_sub_status (sig : Bool) (a b : BcNum) (s : Nat) :
    (bc_num_sub sig a b s).1 = BcStatus.success ∨
      (bc_num_sub sig a b s).1 = BcStatus.signal := by
  rw [bc_num_sub_fst]; split <;> simp

theorem ifSigStatus (sig : Bool) (s : BcStatus)
    (hs : s = BcStatus.success ∨ s = BcStatus.signal) :
    (if sig = true ∧ s = BcStatus.success then BcStatus.signal else s) =
        BcStatus.success ∨
      (if sig = true ∧ s = BcStatus.success then BcStatus.signal else s) =
        BcStatus.signal := by
  rcases hs with h | h <;> subst h <;> split_ifs <;> simp_all

theorem ifSigStatusM (sig : Bool) (s : BcStatus)
    (hs : s = BcStatus.success ∨ s = BcStatus.signal) :
    MulOk (if sig = true ∧ s = BcStatus.success then BcStatus.signal else s) := by
  rcases ifSigStatus sig s hs with h | h <;> rw [h] <;> simp [MulOk]

theorem bc_num_shiftLeft_status (sig : Bool) (n : BcNum) (p : Nat) :
    MulOk (bc_num_shiftLeft sig n p).1 := by
  unfold bc_num_shiftLeft
  split
  · simp [MulOk]
  split
  · simp [MulOk]
  split
  · simp [MulOk]
  apply ifSigStatusM
  dsimp only
  split
  · rw [bc_num_shift_fst]; split_ifs <;> simp
  · simp

theorem bc_num_shiftRight_status (sig : Bool) (n : BcNum) (p : Nat) :
    (bc_num_shiftRight sig n p).1 = BcStatus.success ∨
      (bc_num_shiftRight sig n p).1 = BcStatus.signal := by
  unfold bc_num_shiftRight
  split
  · simp
  split
  · simp
  apply ifSigStatus
  split
  · rw [bc_num_shift_fst]; split_ifs <;> simp
  · simp

theorem mulOk_shiftRight (sig : Bool) (n : BcNum) (p : Nat) :
    MulOk (bc_num_shiftRight sig n p).1 := by
  rcases bc_num_shiftRight_status sig n p with hs | hs <;> simp [MulOk, hs]

theorem mulOk_sub (sig : Bool) (a b : BcNum) (scale : Nat) :
    MulOk (bc_num_sub sig a b scale).1 := by
  rcases bc_num_sub_status sig a b scale with hs | hs <;> simp [MulOk, hs]

theorem bc_num_shiftAddSub_arr_fst (sig : Bool) (n a : BcNum) (sh : Nat)
    (useSub : Bool) :
    (bc_num_shiftAddSub sig n a sh
        (if useSub then bc_num_subArrays else bc_num_addArrays)).1 =
      if sig then BcStatus.signal else BcStatus.success := by
  unfold bc_num_shiftAddSub
  cases useSub <;> simp [bc_num_addArrays_fst, bc_num_subArrays_fst]

theorem k_shifts_status (sig : Bool) (c z : BcNum) (l : List (Nat × Bool)) :
    (k_shifts sig c z l).1 = BcStatus.success ∨
      (k_shifts sig c z l).1 = BcStatus.signal := by
  induction l generalizing c with
  | nil => simp [k_shifts]
  | cons sh rest ih =>
    simp only [k_shifts]
    rw [bc_num_shiftAddSub_arr_fst]
    cases sig
    · simpa using ih _
    · simp

theorem m_k_status (fuel : Nat) :
    (∀ sig a b c scale r, bc_num_m fuel sig a b c scale = some r → MulOk r.1) ∧
    (∀ sig x y c sh r, k_prod fuel sig x y c sh = some r → MulOk r.1) ∧
    (∀ sig a b c r, bc_num_k fuel sig a b c = some r → MulOk r.1) := by
  induction fuel with
  | zero =>
    refine ⟨?_, ?_, ?_⟩
    · intro sig a b c scale r h; simp [bc_num_m] at h
    · intro sig x y c sh r h
      rw [k_prod] at h
      split at h
      · simp at h
      · simp at h; subst h; first | (rename_i hc; simp [MulOk, hc]) | simp [MulOk]
    · intro sig a b c r h; simp [bc_num_k] at h
  | succ fuel ih =>
    obtain ⟨ihm, ihp, ihk⟩ := ih
    have hm : ∀ sig a b c scale r,
        bc_num_m (fuel + 1) sig a b c scale = some r → MulOk r.1 := by
      intro sig a b c scale r h
      rw [bc_num_m] at h
      try dsimp only at h
      split at h
      · split at h <;>
        · simp only [bc_num_mulArray_fst] at h
          split at h <;> (simp at h; subst h; cases sig <;> simp_all [MulOk])
      · split at h
        · simp at h; subst h; first | (rename_i hc; simp [MulOk, hc]) | simp [MulOk]
        · split at h
          · simp at h; subst h; first | (rename_i hc; simp [MulOk, hc]) | simp [MulOk]
          · split at h
            · exact absurd h (by simp)
            · rename_i rk hk
              split at h
              · simp at h; subst h; first | (rename_i hc; simp [MulOk, hc]) | simp [MulOk]
              · split at h
                · simp at h; subst h; first | (rename_i hc; simp [MulOk, hc]) | simp [MulOk]
                · split at h
                  · simp at h; subst h; first | (rename_i hc; simp [MulOk, hc]) | simp [MulOk]
                  · simp at h
                    subst h
                    first
                      | exact mulOk_shiftRight _ _ _
                      | (dsimp only; exact mulOk_shiftRight _ _ _)
                      | simp [mulOk_shiftRight]
    have hp : ∀ sig x y c sh r,
        k_prod (fuel + 1) sig x y c sh = some r → MulOk r.1 := by
      intro sig x y c sh r h
      rw [k_prod] at h
      split at h
      · try dsimp only at h
        split at h
        · exact absurd h (by simp)
        · rename_i rz hz
          split at h
          · have hmz := ihm _ _ _ _ _ _ hz
            simp at h
            subst h
            simpa [MulOk] using hmz
          · simp at h
            subst h
            rcases k_shifts_status sig c (bc_num_clean rz.2) sh with hs | hs <;>
              simp [hs, MulOk]
      · simp at h; subst h; first | (rename_i hc; simp [MulOk, hc]) | simp [MulOk]
    refine ⟨hm, hp, ?_⟩
    intro sig a b c r h
    rw [bc_num_k] at h
    try dsimp only at h
    split at h
    · simp at h; subst h; first | (rename_i hc; simp [MulOk, hc]) | simp [MulOk]
    · split at h
      · simp at h; subst h; first | (rename_i hc; simp [MulOk, hc]) | simp [MulOk]
      · split at h
        · simp at h; subst h; first | (rename_i hc; simp [MulOk, hc]) | simp [MulOk]
        · split at h
          · simp at h
            subst h
            rw [bc_num_m_simp_fst]
            cases sig <;> simp [MulOk]
          · split at h
            · simp at h
              subst h
              first
                | exact mulOk_sub _ _ _ _
                | (dsimp only; exact mulOk_sub _ _ _ _)
                | simp [mulOk_sub]
            · split at h
              · simp at h
                subst h
                first
                  | exact mulOk_sub _ _ _ _
                  | (dsimp only; exact mulOk_sub _ _ _ _)
                  | simp [mulOk_sub]
              · split at h
                · exact absurd h (by simp)
                · rename_i r2 h2
                  split at h
                  · simp at h
                    subst h
                    simpa [MulOk] using ihp _ _ _ _ _ _ h2
                  · split at h
                    · exact absurd h (by simp)
                    · rename_i r0 h0
                      split at h
                      · simp at h
                        subst h
                        simpa [MulOk] using ihp _ _ _ _ _ _ h0
                      · split at h
                        · exact absurd h (by simp)
                        · rename_i r1 h1
                          split at h
                          · simp at h
                            subst h
                            simpa [MulOk] using ihp _ _ _ _ _ _ h1
                          · simp at h; subst h; first | (rename_i hc; simp [MulOk, hc]) | simp [MulOk]


theorem bc_num_a_nonzero_scale (sig : Bool) (a b : BcNum) (sub : Bool)
    (ha : a.num ≠ []) (hb : b.num ≠ []) :
    (bc_num_a sig a b sub).2.scale = max a.scale b.scale := by
  have hza : ¬ BC_NUM_ZERO a := by simpa [BC_NUM_ZERO_iff] using ha
  have hzb : ¬ BC_NUM_ZERO b := by simpa [BC_NUM_ZERO_iff] using hb
  simp only [bc_num_a, if_neg hza, if_neg hzb]
  split <;> rfl

theorem bc_num_s_core_scale (sig : Bool) (m s : BcNum) (neg : Bool) :
    (bc_num_s_core sig m s neg).2.scale = max m.scale s.scale := by
  simp only [bc_num_s_core, bc_num_clean_scale]
  split_ifs with h
  · rw [bc_num_extend_scale]
    dsimp only
    omega
  · dsimp only
    omega

theorem bc_num_s_nonzero_scale (a b : BcNum) (sub : Bool)
    (ha : a.num ≠ []) (hb : b.num ≠ []) :
    (bc_num_s false a b sub).2.scale = max a.scale b.scale ∨
      ((bc_num_s false a b sub).2.num = [] ∧
        (bc_num_s false a b sub).2.scale = max a.rdx b.rdx) := by
  have hza : ¬ BC_NUM_ZERO a := by simpa [BC_NUM_ZERO_iff] using ha
  have hzb : ¬ BC_NUM_ZERO b := by simpa [BC_NUM_ZERO_iff] using hb
  simp only [bc_num_s, if_neg hza, if_neg hzb]
  obtain ⟨cmp, hcmp⟩ := Option.isSome_iff_exists.mp
    (bc_num_cmp_false_isSome { a with neg := false } { b with neg := false })
  rw [hcmp]
  by_cases h0 : cmp = 0
  · exact Or.inr (by simp [h0, bc_num_setToZero])
  · left
    simp only [if_neg h0]
    by_cases hpos : cmp > 0 <;>
      simp [hpos, bc_num_s_core_scale, Nat.max_comm]

/-! ### Status lemmas for the division tree -/

theorem bc_num_d_long_status (sig : Bool) (a b c : BcNum) (scale : Nat)
    (r : BcStatus × BcNum) (h : bc_num_d_long sig a b c scale = some r) :
    r.1 = BcStatus.success ∨ r.1 = BcStatus.signal := by
  rw [bc_num_d_long] at h
  try dsimp only at h
  split at h
  · simp at h; subst h; simp
  · split at h
    · exact absurd h (by simp)
    · simp at h; subst h; simp

theorem bc_num_d_status (sig : Bool) (a b c : BcNum) (scale : Nat)
    (hb : b.len ≠ 0) (r : BcStatus × BcNum)
    (h : bc_num_d sig a b c scale = some r) :
    r.1 = BcStatus.success ∨ r.1 = BcStatus.signal := by
  rw [bc_num_d] at h
  rw [if_neg hb] at h
  dsimp only at h
  split at h
  · simp at h; subst h; simp
  · split at h
    · simp at h; subst h; simp
    · split at h
      · simp at h; subst h
        dsimp only
        rw [bc_num_divArray_fst]
        cases sig <;> simp
      · split at h
        · exact absurd h (by simp)
        · rename_i rl hl
          split at h
          · simp at h; subst h; simp
          · simp at h; subst h
            exact bc_num_d_long_status _ _ _ _ _ _ hl

theorem bc_num_r_status (sig : Bool) (a b c d : BcNum) (scale ts : Nat)
    (hb : b.len ≠ 0) (r : BcStatus × BcNum × BcNum)
    (h : bc_num_r sig a b c d scale ts = some r) : MulOk r.1 := by
  rw [bc_num_r] at h
  rw [if_neg hb] at h
  dsimp only at h
  split at h
  · simp at h; subst h; simp [MulOk]
  · split at h
    · exact absurd h (by simp)
    · rename_i rc hc
      split at h
      · simp at h; subst h
        rcases bc_num_d_status sig a b c scale hb rc hc with hs | hs <;>
          simp [MulOk, hs]
      · split at h
        · exact absurd h (by simp)
        · rename_i rm hm
          split at h
          · simp at h; subst h
            simpa [MulOk] using (m_k_status (mulFuel rc.2 b)).1 _ _ _ _ _ _ hm
          · split at h <;>
            · split at h
              · simp at h; subst h
                first
                  | exact mulOk_sub _ _ _ _
                  | (dsimp only; exact mulOk_sub _ _ _ _)
              · simp at h; subst h; simp [MulOk]

theorem bc_num_rem_status (sig : Bool) (a b c : BcNum) (scale : Nat)
    (hb : b.len ≠ 0) (r : BcStatus × BcNum)
    (h : bc_num_rem sig a b c scale = some r) : MulOk r.1 := by
  rw [bc_num_rem] at h
  try dsimp only at h
  split at h
  · exact absurd h (by simp)
  · rename_i rr hr
    simp at h; subst h
    exact bc_num_r_status _ _ _ _ _ _ _ hb _ hr

theorem bc_num_divmod_status (sig : Bool) (a b c d : BcNum) (scale : Nat)
    (hb : b.len ≠ 0) (r : BcStatus × BcNum × BcNum)
    (h : bc_num_divmod sig a b c d scale = some r) : MulOk r.1 := by
  rw [bc_num_divmod] at h
  dsimp only at h
  split at h
  · simp at h; subst h
    dsimp only
    rw [bc_num_divArray_fst]
    cases sig <;> simp [MulOk]
  · exact bc_num_r_status _ _ _ _ _ _ _ hb _ h

theorem modexp_loop_status (sig : Bool) (c : BcNum) (fuel : Nat) :
    ∀ exp base d r, modexp_loop sig c fuel exp base d = some r →
      r.1 = BcStatus.success ∨ r.1 = BcStatus.signal := by
  induction fuel with
  | zero => intro exp base d r h; simp [modexp_loop] at h
  | succ fuel ih =>
    intro exp base d r h
    rw [modexp_loop] at h
    dsimp only at h
    split at h
    · simp at h; subst h; simp
    · split at h
      · simp at h; subst h; simp
      · split at h
        · exact absurd h (by simp)
        · rename_i rdm hdm
          split at h
          · rename_i hsg
            simp at h; subst h; simp [hsg]
          · split at h
            · exact absurd h (by simp)
            · -- inner expression produced an early status: it is a signal
              rename_i st d2 heq
              simp at h
              subst h
              split at heq
              · split at heq
                · exact absurd heq (by simp)
                · rename_i rm hrm
                  split at heq
                  · rename_i hsg
                    simp at heq
                    simp [← heq.1, hsg]
                  · split at heq
                    · exact absurd heq (by simp)
                    · rename_i rr hrr
                      split at heq
                      · rename_i hsg
                        simp at heq
                        simp [← heq.1, hsg]
                      · simp at heq
              · simp at heq
            · -- inner expression succeeded: continue the loop
              split at h
              · exact absurd h (by simp)
              · rename_i rm2 hrm2
                split at h
                · rename_i hsg
                  simp at h; subst h; simp [hsg]
                · split at h
                  · exact absurd h (by simp)
                  · rename_i rr2 hrr2
                    split at h
                    · rename_i hsg
                      simp at h; subst h; simp [hsg]
                    · exact ih _ _ _ _ h

theorem bc_num_modexp_status (sig : Bool) (a b c : BcNum)
    (hc : c.len ≠ 0) (r : BcStatus × BcNum)
    (h : bc_num_modexp sig a b c = some r) :
    r.1 ≠ BcStatus.divideByZero := by
  rw [bc_num_modexp] at h
  rw [if_neg hc] at h
  dsimp only at h
  split at h
  · simp at h; subst h; simp
  · split at h
    · simp at h; subst h; simp
    · split at h
      · exact absurd h (by simp)
      · rename_i rb hrb
        split at h
        · rename_i hsg
          simp at h; subst h; simp [hsg]
        · rcases modexp_loop_status sig c _ _ _ _ _ h with hs | hs <;>
            simp [hs]

/-! ### Signal-propagation lemmas: results produced with the flag set -/

theorem bc_num_k_sig (fuel : Nat) (a b c : BcNum) (r : BcStatus × BcNum)
    (h : bc_num_k fuel true a b c = some r) : r.1 = BcStatus.signal := by
  match fuel with
  | 0 => rw [bc_num_k] at h; exact absurd h (by simp)
  | fuel + 1 =>
    rw [bc_num_k] at h
    simp at h
    subst h
    rfl

theorem bc_num_m_sig (fuel : Nat) (a b c : BcNum) (scale : Nat)
    (r : BcStatus × BcNum) (h : bc_num_m fuel true a b c scale = some r) :
    r.1 = BcStatus.signal := by
  match fuel with
  | 0 => rw [bc_num_m] at h; exact absurd h (by simp)
  | fuel + 1 =>
    rw [bc_num_m] at h
    try dsimp only at h
    split at h
    · split at h <;>
      · split at h
        · simp at h; subst h
          simp [bc_num_mulArray_fst]
        · rename_i hne
          rw [bc_num_mulArray_fst] at hne
          simp at hne
    · split at h
      · rename_i hsg
        simp at h; subst h
        exact hsg
      · split at h
        · rename_i hsg
          simp at h; subst h
          exact hsg
        · split at h
          · exact absurd h (by simp)
          · rename_i rk hk
            have hks := bc_num_k_sig fuel _ _ _ _ hk
            split at h
            · simp at h; subst h
              exact hks
            · rename_i hne
              exact absurd hks hne

theorem bc_num_d_long_sig (a b c : BcNum) (scale : Nat)
    (r : BcStatus × BcNum) (h : bc_num_d_long true a b c scale = some r) :
    r.1 = BcStatus.signal := by
  rw [bc_num_d_long] at h
  simp at h
  subst h
  rfl

theorem bc_num_d_sig (a b c : BcNum) (scale : Nat) (hb : b.len ≠ 0)
    (ha : a.len ≠ 0) (hone : ¬ BC_NUM_ONE b) (r : BcStatus × BcNum)
    (h : bc_num_d true a b c scale = some r) : r.1 = BcStatus.signal := by
  rw [bc_num_d] at h
  rw [if_neg hb, if_neg ha, if_neg hone] at h
  try dsimp only at h
  split at h
  · simp at h; subst h
    dsimp only
    rw [bc_num_divArray_fst]
    rfl
  · split at h
    · exact absurd h (by simp)
    · rename_i rl hl
      have hsg := bc_num_d_long_sig _ _ _ _ _ hl
      split at h
      · rename_i hsucc
        rw [hsg] at hsucc
        exact absurd hsucc (by simp)
      · simp at h; subst h
        exact hsg

theorem bc_num_r_sig (a b c d : BcNum) (scale ts : Nat) (hb : b.len ≠ 0)
    (ha : a.len ≠ 0) (r : BcStatus × BcNum × BcNum)
    (h : bc_num_r true a b c d scale ts = some r) : r.1 = BcStatus.signal := by
  rw [bc_num_r] at h
  rw [if_neg hb, if_neg ha] at h
  try dsimp only at h
  split at h
  · exact absurd h (by simp)
  · rename_i rc hc
    split at h
    · rename_i hne
      simp at h; subst h
      rcases bc_num_d_status true a b c scale hb rc hc with hs | hs
      · exact absurd hs hne
      · exact hs
    · split at h
      · exact absurd h (by simp)
      · rename_i rm hm
        have hrm := bc_num_m_sig _ _ _ _ _ _ hm
        split at h
        · simp at h; subst h
          exact hrm
        · rename_i hne2
          simp [hrm] at hne2

theorem bc_num_rem_sig (a b c : BcNum) (scale : Nat) (hb : b.len ≠ 0)
    (ha : a.len ≠ 0) (r : BcStatus × BcNum)
    (h : bc_num_rem true a b c scale = some r) : r.1 = BcStatus.signal := by
  rw [bc_num_rem] at h
  try dsimp only at h
  split at h
  · exact absurd h (by simp)
  · rename_i rr hr
    simp at h; subst h
    exact bc_num_r_sig _ _ _ _ _ _ hb ha _ hr

theorem bc_num_divmod_sig (a b c d : BcNum) (scale : Nat) (hb : b.len ≠ 0)
    (ha : a.len ≠ 0) (r : BcStatus × BcNum × BcNum)
    (h : bc_num_divmod true a b c d scale = some r) :
    r.1 = BcStatus.signal := by
  rw [bc_num_divmod] at h
  try dsimp only at h
  split at h
  · simp at h; subst h
    dsimp only
    rw [bc_num_divArray_fst]
    rfl
  · exact bc_num_r_sig _ _ _ _ _ _ hb ha _ h

/-! ### Scale of multiplication results -/

theorem bc_num_truncate_scale (n : BcNum) (places : Nat) :
    (bc_num_truncate n places).scale = n.scale - places := by
  rw [bc_num_truncate]
  split
  · simp_all
  · dsimp only
    split
    · rfl
    · rw [bc_num_clean_scale]

theorem bc_num_retireMul_scale (n : BcNum) (scale : Nat) (n1 n2 : Bool) :
    (bc_num_retireMul n scale n1 n2).scale = scale := by
  rw [bc_num_retireMul]
  try dsimp only
  split_ifs with h1 h2 h2 <;>
    simp only [bc_num_clean_scale, bc_num_extend_scale,
      bc_num_truncate_scale] <;>
    omega

theorem bc_num_m_scale (fuel : Nat) (a b c : BcNum) (scale : Nat)
    (ha : a.num ≠ [] → a.rdx = BC_NUM_RDX a.scale)
    (hb : b.num ≠ [] → b.rdx = BC_NUM_RDX b.scale)
    (r : BcStatus × BcNum)
    (h : bc_num_m fuel false a b c scale = some r)
    (hs : r.1 = BcStatus.success) :
    r.2.scale = min (a.scale + b.scale) (max (max scale a.scale) b.scale) := by
  match fuel with
  | 0 => rw [bc_num_m] at h; exact absurd h (by simp)
  | fuel + 1 =>
    rw [bc_num_m] at h
    try dsimp only at h
    split at h
    · rename_i hcond
      split at h
      · rename_i hlen1
        split at h
        · rename_i hg
          simp at h; subst h
          exact absurd (hg.symm.trans hs) (by simp)
        · simp at h; subst h
          have h1 : a.num ≠ [] := by
            intro hnil
            have h2 : a.num.length = 1 := hlen1
            simp [hnil] at h2
          have h2 := ha h1
          rw [hcond.2.1] at h2
          have ha0 : a.scale = 0 := by
            simp [BC_NUM_RDX, BC_BASE_DIGS] at h2
            omega
          dsimp only
          omega
      · rename_i hlen1
        have hblen : b.len = 1 := by
          rcases hcond.1 with h1 | h1
          · exact absurd h1 hlen1
          · exact h1
        split at h
        · rename_i hg
          simp at h; subst h
          exact absurd (hg.symm.trans hs) (by simp)
        · simp at h; subst h
          have h1 : b.num ≠ [] := by
            intro hnil
            have h2 : b.num.length = 1 := hblen
            simp [hnil] at h2
          have h2 := hb h1
          rw [hcond.2.2] at h2
          have hb0 : b.scale = 0 := by
            simp [BC_NUM_RDX, BC_BASE_DIGS] at h2
            omega
          dsimp only
          omega
    · split at h
      · rename_i hg
        simp at h; subst h
        exact absurd (hg.symm.trans hs) (by simp)
      · split at h
        · rename_i hg
          simp at h; subst h
          exact absurd (hg.symm.trans hs) (by simp)
        · split at h
          · exact absurd h (by simp)
          · rename_i rk hk
            split at h
            · rename_i hg
              simp at h; subst h
              exact absurd (hg.symm.trans hs) (by simp)
            · split at h
              · rename_i hg
                simp at h; subst h
                exact absurd (hg.symm.trans hs) (by simp)
              · split at h
                · rename_i hg
                  simp at h; subst h
                  exact absurd (hg.symm.trans hs) (by simp)
                · simp at h; subst h
                  dsimp only
                  exact bc_num_retireMul_scale _ _ _ _

/-! ### The weakened well-formedness invariant -/

theorem head_dropWhile_ne_zero (l : List Int) :
    (l.dropWhile (· == 0)).head? ≠ some 0 := by
  induction l with
  | nil => simp
  | cons x xs ih =>
    rw [List.dropWhile_cons]
    split_ifs with h
    · exact ih
    · simp only [List.head?_cons, ne_eq, Option.some.injEq]
      intro hx
      subst hx
      simp at h

theorem trimTop_getLast (l : List Int) (h : trimTop l ≠ []) :
    (trimTop l).getLast?.getD 0 ≠ 0 := by
  rw [trimTop, List.getLast?_reverse]
  have := head_dropWhile_ne_zero l.reverse
  cases hh : (l.reverse.dropWhile (· == 0)).head? with
  | none =>
    rw [trimTop] at h
    simp only [ne_eq, List.reverse_eq_nil_iff] at h
    rw [List.head?_eq_none_iff] at hh
    exact absurd hh h
  | some x =>
    rw [hh] at this
    simp only [ne_eq, Option.some.injEq] at this
    simpa using this

theorem WFweak_clean (n : BcNum) : WFweak (bc_num_clean n) := by
  rw [bc_num_clean, WFweak]
  try dsimp only
  split_ifs with h1 h2
  · refine ⟨fun _ => rfl, fun h0 => ?_, fun h0 => ?_⟩ <;>
      exact absurd h1 (by simpa [BcNum.len] using h0)
  · refine ⟨fun h0 => ?_, fun _ => ?_, fun _ => ?_⟩
    · have h0' : (trimTop n.num ++
          List.replicate (n.rdx - (trimTop n.num).length) 0).length = 0 := h0
      rw [List.length_append, List.length_replicate] at h0'
      exact absurd h0' (by omega)
    · show n.rdx ≤ (trimTop n.num ++
          List.replicate (n.rdx - (trimTop n.num).length) 0).length
      rw [List.length_append, List.length_replicate]
      omega
    · right
      show (trimTop n.num ++
          List.replicate (n.rdx - (trimTop n.num).length) 0).length = n.rdx
      rw [List.length_append, List.length_replicate]
      omega
  · refine ⟨fun h0 => ?_, fun _ => ?_, fun _ => ?_⟩
    · exact absurd h1 (by simpa [BcNum.len] using h0)
    · simp only [BcNum.len] at *
      omega
    · left
      exact trimTop_getLast n.num (by
        intro hnil
        exact h1 (by simp [hnil]))

theorem WFweak_negjuggle (m : BcNum) (v : Bool) (hm : WFweak m) :
    WFweak (if m.len ≠ 0 then { m with neg := v } else { m with neg := false }) := by
  split_ifs with h
  · exact ⟨fun h0 => absurd h0 h, hm.2.1, hm.2.2⟩
  · exact ⟨fun _ => rfl, hm.2.1, hm.2.2⟩

theorem WFweak_retireMul (n : BcNum) (scale : Nat) (n1 n2 : Bool) :
    WFweak (bc_num_retireMul n scale n1 n2) := by
  rw [bc_num_retireMul]
  try dsimp only
  split_ifs with h1 h2 h2
  · obtain ⟨c1, c2, c3⟩ := WFweak_clean (bc_num_extend n (scale - n.scale))
    exact ⟨fun h0 => absurd h0 h2, c2, c3⟩
  · exact WFweak_clean _
  · obtain ⟨c1, c2, c3⟩ := WFweak_clean (bc_num_truncate n (n.scale - scale))
    exact ⟨fun h0 => absurd h0 h2, c2, c3⟩
  · exact WFweak_clean _

theorem WFweak_setToZero (n : BcNum) (scale : Nat) :
    WFweak (bc_num_setToZero n scale) :=
  ⟨fun _ => rfl, fun h0 => absurd rfl h0, fun h0 => absurd rfl h0⟩

theorem bc_num_d_wfweak (sig : Bool) (a b c : BcNum) (scale : Nat)
    (r : BcStatus × BcNum) (h : bc_num_d sig a b c scale = some r)
    (hs : r.1 = BcStatus.success) : WFweak r.2 := by
  rw [bc_num_d] at h
  try dsimp only at h
  split at h
  · simp at h; subst h
    exact absurd hs (by simp)
  · split at h
    · simp at h; subst h
      exact WFweak_setToZero c scale
    · split at h
      · simp at h; subst h
        exact WFweak_retireMul _ _ _ _
      · split at h
        · simp at h; subst h
          exact WFweak_retireMul _ _ _ _
        · split at h
          · exact absurd h (by simp)
          · rename_i rl hl
            split at h
            · simp at h; subst h
              exact WFweak_retireMul _ _ _ _
            · rename_i hne
              simp at h; subst h
              exact absurd hs hne

set_option maxHeartbeats 2000000 in
theorem bc_num_r_wfweak_rem (sig : Bool) (a b c d : BcNum) (scale ts : Nat)
    (r : BcStatus × BcNum × BcNum) (h : bc_num_r sig a b c d scale ts = some r)
    (hs : r.1 = BcStatus.success) : WFweak r.2.2 := by
  rw [bc_num_r] at h
  try dsimp only at h
  split at h
  · simp at h; subst h
    exact absurd hs (by simp)
  · split at h
    · simp at h; subst h
      exact WFweak_setToZero d ts
    · split at h
      · exact absurd h (by simp)
      · rename_i rc hc
        split at h
        · rename_i hne
          simp at h; subst h
          exact absurd hs hne
        · split at h
          · exact absurd h (by simp)
          · rename_i rm hm
            split at h
            · rename_i hne
              simp at h; subst h
              exact absurd hs hne
            · split at h <;>
              · split at h
                · rename_i hne
                  rw [Option.some.injEq] at h
                  subst h
                  exact absurd hs hne
                · rw [Option.some.injEq] at h
                  subst h
                  exact WFweak_negjuggle _ _ (WFweak_retireMul _ _ _ _)

/-! ### Claim theorems -/

/-- C1: `bc_num_cmp` does not reflect the sign of `a - b` when both
operands are negative with different integer-cell counts: at
`a = -10^9` (two cells) and `b = -1` (one cell) the code returns the
un-negated integer-cell-count difference `+1` (num.c line 242) although
`a < b`; the window-compare result a few lines below is negated for two
negatives, so the intent (spec: result reflects `a − b`) is clear and
line 242 is the slip. -/
theorem C1_cmp_negative_unequal_intcells_bug :
    WF ⟨[0, 1], 0, 0, true⟩ ∧ WF ⟨[1], 0, 0, true⟩ ∧
    BcNum.val ⟨[0, 1], 0, 0, true⟩ < BcNum.val ⟨[1], 0, 0, true⟩ ∧
    bc_num_cmp false ⟨[0, 1], 0, 0, true⟩ ⟨[1], 0, 0, true⟩ = some 1 := by
  refine ⟨by decide, by decide, ?_, by decide⟩
  norm_num [BcNum.val, listVal, BC_BASE_POW]

/-- C10 (counterexample): adding a zero of scale 1 to a nonzero number of
scale 0 copies the nonzero operand, so the result's scale is 0, not
`max(a.scale, b.scale) = 1`. -/
theorem C10_add_scale_counterexample :
    WF ⟨[], 0, 1, false⟩ ∧ WF ⟨[1], 0, 0, false⟩ ∧
    (bc_num_add false ⟨[], 0, 1, false⟩ ⟨[1], 0, 0, false⟩ 0).2.scale = 0 ∧
    max (BcNum.scale ⟨[], 0, 1, false⟩) (BcNum.scale ⟨[1], 0, 0, false⟩) = 1 := by
  refine ⟨by decide, by decide, by decide, by decide⟩

/-- C10 (amended): the `scale` parameter of `bc_num_add` and `bc_num_sub`
never affects the result, and for operands that are both nonzero the
result's scale field is `max(a.scale, b.scale)`, except that a
magnitude-subtraction of equal magnitudes yields the zero with scale
`max(a.rdx, b.rdx)`.  (When an operand is zero, the result is instead a
copy of the other operand, keeping that operand's scale.) -/
theorem C10_add_sub_scale (a b : BcNum) (s₁ s₂ : Nat)
    (ha : a.num ≠ []) (hb : b.num ≠ []) :
    bc_num_add false a b s₁ = bc_num_add false a b s₂ ∧
    bc_num_sub false a b s₁ = bc_num_sub false a b s₂ ∧
    ((bc_num_add false a b s₁).2.scale = max a.scale b.scale ∨
      ((bc_num_add false a b s₁).2.num = [] ∧
        (bc_num_add false a b s₁).2.scale = max a.rdx b.rdx)) ∧
    ((bc_num_sub false a b s₁).2.scale = max a.scale b.scale ∨
      ((bc_num_sub false a b s₁).2.num = [] ∧
        (bc_num_sub false a b s₁).2.scale = max a.rdx b.rdx)) := by
  refine ⟨rfl, rfl, ?_, ?_⟩ <;>
  · simp only [bc_num_add, bc_num_sub]
    split
    · first
        | exact Or.inl (bc_num_a_nonzero_scale false a b _ ha hb)
        | exact bc_num_s_nonzero_scale a b _ ha hb
    · first
        | exact Or.inl (bc_num_a_nonzero_scale false a b _ ha hb)
        | exact bc_num_s_nonzero_scale a b _ ha hb

/-- C10 (witness): `C10_add_sub_scale` instantiated at `1` and `2` with
scales `0` and `5`. -/
theorem C10_add_sub_scale_witness :
    (([1] : List Int) ≠ [] ∧ ([2] : List Int) ≠ []) ∧
    (bc_num_add false ⟨[1], 0, 0, false⟩ ⟨[2], 0, 0, false⟩ 0 =
        bc_num_add false ⟨[1], 0, 0, false⟩ ⟨[2], 0, 0, false⟩ 5 ∧
      bc_num_sub false ⟨[1], 0, 0, false⟩ ⟨[2], 0, 0, false⟩ 0 =
        bc_num_sub false ⟨[1], 0, 0, false⟩ ⟨[2], 0, 0, false⟩ 5 ∧
      ((bc_num_add false ⟨[1], 0, 0, false⟩ ⟨[2], 0, 0, false⟩ 0).2.scale =
          max (0 : Nat) 0 ∨
        ((bc_num_add false ⟨[1], 0, 0, false⟩ ⟨[2], 0, 0, false⟩ 0).2.num = [] ∧
          (bc_num_add false ⟨[1], 0, 0, false⟩ ⟨[2], 0, 0, false⟩ 0).2.scale =
            max (0 : Nat) 0)) ∧
      ((bc_num_sub false ⟨[1], 0, 0, false⟩ ⟨[2], 0, 0, false⟩ 0).2.scale =
          max (0 : Nat) 0 ∨
        ((bc_num_sub false ⟨[1], 0, 0, false⟩ ⟨[2], 0, 0, false⟩ 0).2.num = [] ∧
          (bc_num_sub false ⟨[1], 0, 0, false⟩ ⟨[2], 0, 0, false⟩ 0).2.scale =
            max (0 : Nat) 0))) :=
  ⟨⟨by decide, by decide⟩,
    C10_add_sub_scale ⟨[1], 0, 0, false⟩ ⟨[2], 0, 0, false⟩ 0 5
      (by decide) (by decide)⟩

/-- C7: `div`, `rem` (`mod`) and `divmod` return `divideByZero` exactly
when the divisor `b` is zero, and `modexp` returns it exactly when the
modulus `m` is zero, regardless of the dividend and of the signal flag;
with a zero divisor the error result is produced explicitly. -/
theorem C7_divide_by_zero (sig : Bool) (a b c d m : BcNum) (scale : Nat) :
    (∀ r, bc_num_div sig a b scale = some r →
       (r.1 = BcStatus.divideByZero ↔ b.len = 0)) ∧
    (∀ r, bc_num_mod sig a b scale = some r →
       (r.1 = BcStatus.divideByZero ↔ b.len = 0)) ∧
    (∀ r, bc_num_divmod sig a b c d scale = some r →
       (r.1 = BcStatus.divideByZero ↔ b.len = 0)) ∧
    (∀ r, bc_num_modexp sig a b m = some r →
       (r.1 = BcStatus.divideByZero ↔ m.len = 0)) ∧
    (b.len = 0 →
       bc_num_div sig a b scale =
         some (BcStatus.divideByZero, ⟨[], 0, 0, false⟩)) ∧
    (b.len = 0 →
       bc_num_mod sig a b scale =
         some (BcStatus.divideByZero, ⟨[], 0, 0, false⟩)) ∧
    (b.len = 0 →
       bc_num_divmod sig a b c d scale =
         some (BcStatus.divideByZero, c, d)) ∧
    (m.len = 0 →
       bc_num_modexp sig a b m =
         some (BcStatus.divideByZero, ⟨[], 0, 0, false⟩)) := by
  have hdiv0 : b.len = 0 →
      bc_num_div sig a b scale =
        some (BcStatus.divideByZero, ⟨[], 0, 0, false⟩) := by
    intro hb0
    simp [bc_num_div, bc_num_d, hb0]
  have hmod0 : b.len = 0 →
      bc_num_mod sig a b scale =
        some (BcStatus.divideByZero, ⟨[], 0, 0, false⟩) := by
    intro hb0
    simp [bc_num_mod, bc_num_rem, bc_num_r, hb0]
  have hdm0 : b.len = 0 →
      bc_num_divmod sig a b c d scale =
        some (BcStatus.divideByZero, c, d) := by
    intro hb0
    simp [bc_num_divmod, bc_num_r, hb0]
  have hme0 : m.len = 0 →
      bc_num_modexp sig a b m =
        some (BcStatus.divideByZero, ⟨[], 0, 0, false⟩) := by
    intro hm0
    simp [bc_num_modexp, hm0]
  refine ⟨?_, ?_, ?_, ?_, hdiv0, hmod0, hdm0, hme0⟩
  · intro r h
    constructor
    · intro hdbz
      by_contra hb
      rcases bc_num_d_status sig a b _ scale hb r h with hs | hs <;>
        simp [hs] at hdbz
    · intro hb0
      rw [hdiv0 hb0] at h
      simp at h
      subst h
      rfl
  · intro r h
    constructor
    · intro hdbz
      by_contra hb
      rcases bc_num_rem_status sig a b _ scale hb r h with hs | hs | hs <;>
        simp [hs] at hdbz
    · intro hb0
      rw [hmod0 hb0] at h
      simp at h
      subst h
      rfl
  · intro r h
    constructor
    · intro hdbz
      by_contra hb
      rcases bc_num_divmod_status sig a b c d scale hb r h with hs | hs | hs <;>
        simp [hs] at hdbz
    · intro hb0
      rw [hdm0 hb0] at h
      simp at h
      subst h
      rfl
  · intro r h
    constructor
    · intro hdbz
      by_contra hm
      exact bc_num_modexp_status sig a b m hm r h hdbz
    · intro hm0
      rw [hme0 hm0] at h
      simp at h
      subst h
      rfl

/-- C7 (witness): `C7_divide_by_zero` instantiated at `a = 5` with a
zero divisor: `div(5, 0)` produces the `divideByZero` error result, and
the status equivalence holds at that result. -/
theorem C7_divide_by_zero_witness :
    bc_num_div false ⟨[5], 0, 0, false⟩ ⟨[], 0, 0, false⟩ 0 =
      some (BcStatus.divideByZero, ⟨[], 0, 0, false⟩) ∧
    (BcStatus.divideByZero = BcStatus.divideByZero ↔
      BcNum.len ⟨[], 0, 0, false⟩ = 0) :=
  ⟨(C7_divide_by_zero false ⟨[5], 0, 0, false⟩ ⟨[], 0, 0, false⟩
      ⟨[], 0, 0, false⟩ ⟨[], 0, 0, false⟩ ⟨[], 0, 0, false⟩ 0).2.2.2.2.1 rfl,
   (C7_divide_by_zero false ⟨[5], 0, 0, false⟩ ⟨[], 0, 0, false⟩
      ⟨[], 0, 0, false⟩ ⟨[], 0, 0, false⟩ ⟨[], 0, 0, false⟩ 0).1
      (BcStatus.divideByZero, ⟨[], 0, 0, false⟩) (by decide)⟩

/-- C9 (counterexample): the spec says any operation started with the
signal flag already raised returns the interrupted (signal) status, but
`add(0, 1)` takes the zero-operand early path, never polls the flag, and
returns `success` with a full result even though the flag is set. -/
theorem C9_signal_counterexample :
    bc_num_add true ⟨[], 0, 0, false⟩ ⟨[1], 0, 0, false⟩ 0 =
      (BcStatus.success, ⟨[1], 0, 0, false⟩) := by decide

/-- C9 (amended): an operation returns the signal status when the flag is
set only if it reaches a poll point.  With the flag raised throughout:
`add`/`sub` signal whenever both operands are nonzero; `mul` signals on
every path that returns; `div` signals when the divisor is nonzero, the
dividend is nonzero and the divisor is not one (those cases return early
without polling); `mod` and `divmod` signal whenever both operands are
nonzero. -/
theorem C9_signal (a b c d : BcNum) (scale : Nat) :
    (¬ BC_NUM_ZERO a → ¬ BC_NUM_ZERO b →
       (bc_num_add true a b scale).1 = BcStatus.signal ∧
       (bc_num_sub true a b scale).1 = BcStatus.signal) ∧
    (∀ r, bc_num_mul true a b scale = some r → r.1 = BcStatus.signal) ∧
    (a.len ≠ 0 → b.len ≠ 0 → ¬ BC_NUM_ONE b →
       ∀ r, bc_num_div true a b scale = some r → r.1 = BcStatus.signal) ∧
    (a.len ≠ 0 → b.len ≠ 0 →
       ∀ r, bc_num_mod true a b scale = some r → r.1 = BcStatus.signal) ∧
    (a.len ≠ 0 → b.len ≠ 0 →
       ∀ r, bc_num_divmod true a b c d scale = some r →
         r.1 = BcStatus.signal) := by
  refine ⟨fun ha hb => ⟨?_, ?_⟩, ?_, ?_, ?_, ?_⟩
  · rw [bc_num_add_fst]; simp [ha, hb]
  · rw [bc_num_sub_fst]; simp [ha, hb]
  · intro r h
    exact bc_num_m_sig _ _ _ _ _ _ h
  · intro ha hb hone r h
    exact bc_num_d_sig _ _ _ _ hb ha hone _ h
  · intro ha hb r h
    exact bc_num_rem_sig _ _ _ _ hb ha _ h
  · intro ha hb r h
    exact bc_num_divmod_sig _ _ _ _ _ hb ha _ h

/-- C9 (witness): `C9_signal` instantiated at `1` and `2` with the flag
set: addition, subtraction and division all come back interrupted. -/
theorem C9_signal_witness :
    (bc_num_add true ⟨[1], 0, 0, false⟩ ⟨[2], 0, 0, false⟩ 0).1 =
        BcStatus.signal ∧
    (bc_num_sub true ⟨[1], 0, 0, false⟩ ⟨[2], 0, 0, false⟩ 0).1 =
        BcStatus.signal ∧
    ((BcStatus.signal, (⟨[], 0, 0, false⟩ : BcNum)) : BcStatus × BcNum).1 =
        BcStatus.signal :=
  ⟨((C9_signal ⟨[1], 0, 0, false⟩ ⟨[2], 0, 0, false⟩ ⟨[], 0, 0, false⟩
        ⟨[], 0, 0, false⟩ 0).1 (by decide) (by decide)).1,
   ((C9_signal ⟨[1], 0, 0, false⟩ ⟨[2], 0, 0, false⟩ ⟨[], 0, 0, false⟩
        ⟨[], 0, 0, false⟩ 0).1 (by decide) (by decide)).2,
   (C9_signal ⟨[1], 0, 0, false⟩ ⟨[2], 0, 0, false⟩ ⟨[], 0, 0, false⟩
        ⟨[], 0, 0, false⟩ 0).2.2.1 (by decide) (by decide) (by decide)
     (BcStatus.signal, ⟨[], 0, 0, false⟩) (by decide)⟩

/-- C2 (counterexample): `sqrt` does not tolerate output aliasing its
input (the C only asserts `a != b`): called with `b == a` on the value
`1`, `bc_num_init(b)` clobbers `*a` before its cells are read, so the
aliased call returns `0` while the distinct-output call returns `1`. -/
theorem C2_sqrt_alias_counterexample :
    (bc_num_sqrt_ptr (fun _ => ⟨[1], 0, 0, false⟩) 0 0 0).map
        (fun r => (r.1, r.2 0)) =
      some (BcStatus.success, ⟨[], 0, 0, false⟩) ∧
    (bc_num_sqrt_ptr (fun _ => ⟨[1], 0, 0, false⟩) 0 1 0).map
        (fun r => (r.1, r.2 1)) =
      some (BcStatus.success, ⟨[1], 0, 0, false⟩) := by
  constructor <;> rfl

/-- C2 (amended): the `bc_num_binary` dispatcher is aliasing-safe: for
any inner operation that does not read its output argument, the status
and the value stored through `c` depend only on the operand values, under
every aliasing pattern (`c = a`, `c = b`, both, or neither).  `divmod`
resolves only the `c = a` aliasing: that call computes exactly what the
call with a distinct freshly initialised output computes.  `sqrt` is safe
only for distinct pointers (`bc_num_sqrt_ptr` then agrees with the
value-level `bc_num_sqrt` of the input); the aliased call is the
counterexample. -/
theorem C2_aliasing (h : Nat → BcNum) (a b c d aP bP : Nat)
    (scale req : Nat)
    (op : BcNum → BcNum → BcNum → Nat → BcStatus × BcNum)
    (hop : ∀ x y c1 c2 s, op x y c1 s = op x y c2 s) :
    (bc_num_binary_ptr h a b c scale op req =
       ((op (h a) (h b) ⟨[], 0, 0, false⟩ scale).1,
        heapUpdate h c (op (h a) (h b) ⟨[], 0, 0, false⟩ scale).2)) ∧
    (c = a →
       bc_num_divmod_ptr h a b c d scale =
         (bc_num_divmod false (h a) (h b) ⟨[], 0, 0, false⟩ (h d)
             scale).map
           (fun r => (r.1, heapUpdate (heapUpdate h c r.2.1) d r.2.2))) ∧
    (c ≠ a → h c = ⟨[], 0, 0, false⟩ →
       bc_num_divmod_ptr h a b c d scale =
         (bc_num_divmod false (h a) (h b) ⟨[], 0, 0, false⟩ (h d)
             scale).map
           (fun r => (r.1, heapUpdate (heapUpdate h c r.2.1) d r.2.2))) ∧
    (aP ≠ bP → ¬ (h aP).neg →
       bc_num_sqrt_ptr h aP bP scale =
         (bc_num_sqrt false (h aP) scale).map
           (fun r => (r.1, heapUpdate h bP r.2))) := by
  refine ⟨?_, ?_, ?_, ?_⟩
  · have hA : (if c = a then h c else h a) = h a := by
      split <;> simp_all
    have hB : (if c = b then h c else h b) = h b := by
      split <;> simp_all
    rw [bc_num_binary_ptr]
    try dsimp only
    rw [hA, hB, hop (h a) (h b) _ ⟨[], 0, 0, false⟩ scale]
  · intro hca
    subst hca
    rw [bc_num_divmod_ptr]
    try dsimp only
    rw [if_pos rfl, if_pos rfl]
    cases bc_num_divmod false (h c) (h b) ⟨[], 0, 0, false⟩ (h d) scale <;>
      simp
  · intro hca hfresh
    rw [bc_num_divmod_ptr]
    try dsimp only
    rw [if_neg hca, if_neg hca, hfresh]
    cases bc_num_divmod false (h a) (h b) ⟨[], 0, 0, false⟩ (h d) scale <;>
      simp
  · intro hne hneg
    have hupd : ∀ v : BcNum,
        heapUpdate (heapUpdate h bP ⟨[], 0, 0, false⟩) bP v =
          heapUpdate h bP v := by
      intro v
      funext q
      simp only [heapUpdate]
      split_ifs <;> rfl
    have hread : heapUpdate h bP ⟨[], 0, 0, false⟩ aP = h aP := by
      simp [heapUpdate, hne]
    rw [bc_num_sqrt_ptr, bc_num_sqrt]
    rw [if_neg hneg]
    dsimp only
    rw [hread]
    rw [if_neg hneg]
    split
    · simp [hupd]
    split
    · simp [hupd]
    cases bc_num_sqrt_core false (h aP)
        (if (h aP).scale > scale then (h aP).scale else scale) <;>
      simp [hupd]

/-- C2 (witness): `C2_aliasing` applied to addition with output aliasing
the first operand, to `divmod` with the output aliasing the dividend, and
to `sqrt` on distinct pointers, on a two-cell heap holding `1` and `2`. -/
theorem C2_aliasing_witness :
    (bc_num_binary_ptr (fun p => if p = 0 then ⟨[1], 0, 0, false⟩
          else ⟨[2], 0, 0, false⟩) 0 1 0 0
        (fun x y _ s => bc_num_add false x y s) 4 =
      ((bc_num_add false ⟨[1], 0, 0, false⟩ ⟨[2], 0, 0, false⟩ 0).1,
       heapUpdate (fun p => if p = 0 then ⟨[1], 0, 0, false⟩
          else ⟨[2], 0, 0, false⟩) 0
         (bc_num_add false ⟨[1], 0, 0, false⟩ ⟨[2], 0, 0, false⟩ 0).2)) ∧
    (bc_num_divmod_ptr (fun p => if p = 0 then ⟨[1], 0, 0, false⟩
          else ⟨[2], 0, 0, false⟩) 0 1 0 2 0 =
      (bc_num_divmod false ⟨[1], 0, 0, false⟩ ⟨[2], 0, 0, false⟩
          ⟨[], 0, 0, false⟩ ⟨[2], 0, 0, false⟩ 0).map
        (fun r => (r.1, heapUpdate (heapUpdate (fun p =>
            if p = 0 then ⟨[1], 0, 0, false⟩ else ⟨[2], 0, 0, false⟩)
            0 r.2.1) 2 r.2.2))) ∧
    (bc_num_sqrt_ptr (fun p => if p = 0 then ⟨[1], 0, 0, false⟩
          else ⟨[2], 0, 0, false⟩) 0 1 0 =
      (bc_num_sqrt false ⟨[1], 0, 0, false⟩ 0).map
        (fun r => (r.1, heapUpdate (fun p => if p = 0 then ⟨[1], 0, 0, false⟩
            else ⟨[2], 0, 0, false⟩) 1 r.2))) :=
  ⟨(C2_aliasing (fun p => if p = 0 then ⟨[1], 0, 0, false⟩
        else ⟨[2], 0, 0, false⟩) 0 1 0 2 0 1 0 4
      (fun x y _ s => bc_num_add false x y s)
      (fun _ _ _ _ _ => rfl)).1,
   (C2_aliasing (fun p => if p = 0 then ⟨[1], 0, 0, false⟩
        else ⟨[2], 0, 0, false⟩) 0 1 0 2 0 1 0 4
      (fun x y _ s => bc_num_add false x y s)
      (fun _ _ _ _ _ => rfl)).2.1 rfl,
   (C2_aliasing (fun p => if p = 0 then ⟨[1], 0, 0, false⟩
        else ⟨[2], 0, 0, false⟩) 0 1 0 2 0 1 0 4
      (fun x y _ s => bc_num_add false x y s)
      (fun _ _ _ _ _ => rfl)).2.2.2 (by decide) (by decide)⟩

/-- C5: a successful multiplication (no signal) yields a number whose
`scale` field is `min(a.scale + b.scale, max(scale, a.scale, b.scale))`,
on the single-cell fast path (where the zero-`rdx` precondition together
with the `rdx`/`scale` linkage forces the one-cell integer operand's scale
to `0`) and on the general path (where `bc_num_retireMul` installs exactly
the computed target scale). -/
theorem C5_mul_scale (a b : BcNum) (scale : Nat)
    (ha : a.num ≠ [] → a.rdx = BC_NUM_RDX a.scale)
    (hb : b.num ≠ [] → b.rdx = BC_NUM_RDX b.scale)
    (r : BcStatus × BcNum)
    (h : bc_num_mul false a b scale = some r)
    (hs : r.1 = BcStatus.success) :
    r.2.scale = min (a.scale + b.scale) (max (max scale a.scale) b.scale) :=
  bc_num_m_scale (mulFuel a b) a b ⟨[], 0, 0, false⟩ scale ha hb r h hs

/-- C5 (witness): `C5_mul_scale` at `2 * 3` requested at scale `0`:
the product `6` carries scale `min(0 + 0, max(0, 0, 0)) = 0`. -/
theorem C5_mul_scale_witness :
    (BcNum.scale (⟨[6], 0, 0, false⟩ : BcNum)) =
      min (0 + 0) (max (max 0 0) 0) :=
  C5_mul_scale ⟨[2], 0, 0, false⟩ ⟨[3], 0, 0, false⟩ 0
    (fun _ => rfl) (fun _ => rfl)
    (BcStatus.success, ⟨[6], 0, 0, false⟩)
    (by rw [bc_num_mul, bc_num_m.eq_def]; decide) rfl

/-- C8 (counterexample): the claim "if `len > 0` the top cell
`digits[len-1]` is nonzero" fails: `1 / 10^10` at scale `10` succeeds
with cells `[10^8, 0]` — `len = 2 > 0` and a zero top cell (`clean`
re-extends a purely fractional number's `len` up to `rdx`, exposing zero
cells). -/
theorem C8_topcell_counterexample :
    bc_num_div false ⟨[1], 0, 0, false⟩ ⟨[0, 10], 0, 0, false⟩ 10 =
      some (BcStatus.success, ⟨[100000000, 0], 2, 10, false⟩) ∧
    (⟨[100000000, 0], 2, 10, false⟩ : BcNum).len ≠ 0 ∧
    (⟨[100000000, 0], 2, 10, false⟩ : BcNum).num.getLast?.getD 0 = 0 :=
  ⟨by decide, by decide, by decide⟩

/-- C8 (amended): the invariant actually maintained is the weakened one:
sign cleared on zero, `rdx ≤ len` for nonzero numbers, and the top cell
nonzero UNLESS the number is purely fractional with `len = rdx` (then
`clean` deliberately re-extends over zero cells).  It is established by
`bc_num_clean` and `bc_num_retireMul` and holds for every successful
`div` and `mod` result. -/
theorem C8_wellformed (n a b : BcNum) (scale : Nat) (n1 n2 : Bool) :
    WFweak (bc_num_clean n) ∧
    WFweak (bc_num_retireMul n scale n1 n2) ∧
    (∀ r, bc_num_div false a b scale = some r → r.1 = BcStatus.success →
       WFweak r.2) ∧
    (∀ r, bc_num_mod false a b scale = some r → r.1 = BcStatus.success →
       WFweak r.2) := by
  refine ⟨WFweak_clean n, WFweak_retireMul n scale n1 n2, ?_, ?_⟩
  · intro r h hs
    exact bc_num_d_wfweak false a b _ scale r h hs
  · intro r h hs
    rw [bc_num_mod, bc_num_rem] at h
    try dsimp only at h
    split at h
    · exact absurd h (by simp)
    · rename_i rr hr
      simp at h; subst h
      exact bc_num_r_wfweak_rem false a b _ _ scale _ rr hr hs

/-- C8 (witness): `C8_wellformed` applied to a denormal input of `clean`
and to the quotient `1 / 10^10` at scale `10` (whose zero top cell
satisfies the weakened invariant through its `len = rdx` disjunct). -/
theorem C8_wellformed_witness :
    WFweak (bc_num_clean ⟨[5, 0], 1, 3, true⟩) ∧
    WFweak (⟨[100000000, 0], 2, 10, false⟩ : BcNum) :=
  ⟨(C8_wellformed ⟨[5, 0], 1, 3, true⟩ ⟨[1], 0, 0, false⟩
      ⟨[0, 10], 0, 0, false⟩ 10 false false).1,
   (C8_wellformed ⟨[5, 0], 1, 3, true⟩ ⟨[1], 0, 0, false⟩
      ⟨[0, 10], 0, 0, false⟩ 10 false false).2.2.1
     (BcStatus.success, ⟨[100000000, 0], 2, 10, false⟩) (by decide) rfl⟩

/-- C6 (counterexample): print-then-parse is not the identity.  In base 3
the value `0.5` (scale 1, within the printer's precision) prints as
`.111` — a truncated ternary expansion — which parses back to `0.481`,
not `0.5`.  In base 20 the value `25` prints as ` 01 05` (each digit a
space-separated two-character decimal number); the parser treats each
space as the wrapped digit 240 and reads `768104005` (a debug build
aborts on the `bc_num_strValid` assertion instead). -/
theorem C6_roundtrip_counterexample :
    bc_num_print false ⟨[500000000], 1, 1, false⟩ 3 false ([], 0) =
      some (BcStatus.success, (['.', '1', '1', '1'], 4)) ∧
    bc_num_parse false ['.', '1', '1', '1'] 3 false =
      some (BcStatus.success, ⟨[481000000], 1, 3, false⟩) ∧
    BcNum.val ⟨[481000000], 1, 3, false⟩ ≠
      BcNum.val ⟨[500000000], 1, 1, false⟩ ∧
    bc_num_print false (bc_num_bigdig2num ⟨[], 0, 0, false⟩ 25) 20 false
        ([], 0) =
      some (BcStatus.success, ([' ', '0', '1', ' ', '0', '5'], 6)) ∧
    bc_num_parse false [' ', '0', '1', ' ', '0', '5'] 20 false =
      some (BcStatus.success, ⟨[768104005], 0, 0, false⟩) :=
  ⟨by decide, by decide,
   by simp only [BcNum.val, listVal]; norm_num [BC_BASE_POW],
   by decide, by decide⟩

set_option maxHeartbeats 16000000 in
/-- C6 (amended): the roundtrip does hold for values exactly
representable in the output base: every nonnegative integer below
`base²` printed in any base from 2 to 16 parses back to itself (larger
integers and exactly-representable fractions follow the same digit
algebra; fractions with infinite expansions in the target base and all
bases above 16 do not roundtrip). -/
theorem C6_roundtrip_integers :
    ∀ base : Nat, base < 17 → 2 ≤ base → ∀ v : Nat, v < base ^ 2 →
      bc_num_parse false
          (((bc_num_print false (bc_num_bigdig2num ⟨[], 0, 0, false⟩ v)
              (Int.ofNat base) false ([], 0)).getD
                (BcStatus.success, ([], 0))).2.1) (Int.ofNat base) false =
        some (BcStatus.success, bc_num_bigdig2num ⟨[], 0, 0, false⟩ v) ∧
      (bc_num_print false (bc_num_bigdig2num ⟨[], 0, 0, false⟩ v)
          (Int.ofNat base) false ([], 0)).isSome = true := by
  decide

/-- C6 (witness): `C6_roundtrip_integers` at base 16 and value 255:
`FF` parses back to `255`. -/
theorem C6_roundtrip_integers_witness :
    bc_num_parse false
        (((bc_num_print false (bc_num_bigdig2num ⟨[], 0, 0, false⟩ 255)
            (Int.ofNat 16) false ([], 0)).getD
              (BcStatus.success, ([], 0))).2.1) (Int.ofNat 16) false =
      some (BcStatus.success, bc_num_bigdig2num ⟨[], 0, 0, false⟩ 255) ∧
    (bc_num_print false (bc_num_bigdig2num ⟨[], 0, 0, false⟩ 255)
        (Int.ofNat 16) false ([], 0)).isSome = true :=
  C6_roundtrip_integers 16 (by decide) (by decide) 255 (by decide)

end BcEmbed
